import Mathlib

/-!
Verification development for the packet reception core of pquic
(src/picoquic/packet.c).  The C code is shallowly embedded: machine
integers become `Nat` with explicit reductions modulo `2^16`, `2^32` and
`2^64` where the C types truncate, buffers become `List Nat` of byte
values (out-of-range reads, undefined behaviour in C, read as 0 in the
model), fallible lookups become `Option`, and the external collaborators
(AEAD, header protection, frame decoder, TLS engine, per-type handler
bodies) are parameters of the model.  Functions keep the names of the C
functions they embed.  Definitions whose C source is not part of this
repository snapshot (wire primitives, registry, constants, error codes)
are modelled from the specification and marked as such in their doc
comments.
-/

namespace PQuic

/-! ## Machine integer helpers -/

def U64 : Nat := 2 ^ 64

def U32 : Nat := 2 ^ 32

def U16 : Nat := 2 ^ 16

/-- Truncation to a 32-bit value, as performed by a store into a `uint32_t`. -/
def u32 (x : Nat) : Nat := x % U32

/-- Truncation to a 16-bit value, as performed by a store into a `uint16_t`. -/
def u16 (x : Nat) : Nat := x % U16

/-- Wrapping 32-bit subtraction `a - b` on `uint32_t` operands (`b < 2^32`). -/
def sub32 (a b : Nat) : Nat := (a + U32 - b % U32) % U32

/-- Wrapping 64-bit subtraction `a - b` on `size_t` operands (`b < 2^64`). -/
def sub64 (a b : Nat) : Nat := (a + U64 - b % U64) % U64

/-- Read of `bytes[i]`; an out-of-range access (undefined behaviour in C)
reads 0 in the model. -/
def byteAt (bytes : List Nat) (i : Nat) : Nat := bytes.getD i 0

/-! ## Packet number logic (packet.c lines 300-324) -/

/-- Embedding of `picoquic_get_packet_number64` (packet.c lines 301-324).
All arithmetic is on `uint64_t`; `pn` is a `uint32_t` argument.  The two
wrapping subtractions `not_mask_plus_one - delta1` and
`pn64 -= not_mask_plus_one` are written with explicit `% U64`. -/
def picoquic_get_packet_number64 (highest mask pn : Nat) : Nat :=
  let expected := (highest + 1) % U64
  let not_mask_plus_one := ((U64 - 1 - mask % U64) + 1) % U64
  let pn64 := ((expected &&& (mask % U64)) ||| (pn % U32))
  if pn64 < expected then
    let delta1 := expected - pn64
    let delta2 := (not_mask_plus_one + U64 - delta1) % U64
    if delta2 < delta1 then (pn64 + not_mask_plus_one) % U64 else pn64
  else
    let delta1 := pn64 - expected
    let delta2 := (not_mask_plus_one + U64 - delta1) % U64
    if delta2 ≤ delta1 ∧ 0 < (pn64 &&& (mask % U64)) then (pn64 + U64 - not_mask_plus_one) % U64
    else pn64

/-- Iterated `pnmask <<= 8` on a `uint64_t`, as performed once per packet
number byte by the decryptor loop (packet.c lines 378-383). -/
def pnmask_shift_loop : Nat → Nat → Nat
  | 0, m => m
  | k + 1, m => pnmask_shift_loop k ((m <<< 8) % U64)

/-! ## Connection identifiers and wire primitives -/

structure CnxId where
  len : Nat := 0
  data : List Nat := []
deriving DecidableEq, Repr

def picoquic_null_connection_id : CnxId := {}

/-- Embedding of `picoquic_is_connection_id_null`: a connection id is null
iff its length is zero. -/
def picoquic_is_connection_id_null (c : CnxId) : Bool := c.len = 0

/-- Modelled from the spec §4.1 and §3 (declared in the repository outside
src/): the connection-id parse reads `len` bytes at `off` and advances by
`len`; a length above the 20-byte maximum of the data model yields the
null id and advances by 0. -/
def picoquic_parse_connection_id (bytes : List Nat) (off len : Nat) : CnxId × Nat :=
  if len ≤ 20 then (⟨len, (List.range len).map (fun i => byteAt bytes (off + i))⟩, len)
  else (picoquic_null_connection_id, 0)

/-- Modelled from the spec §4.1 (declared in the repository outside src/):
varint decode consumes 1/2/4/8 bytes selected by the two high bits of the
first byte, returning `(consumed, value)`, with `consumed = 0` when the
encoding does not fit in `maxBytes`. -/
def picoquic_varint_decode (bytes : List Nat) (off maxBytes : Nat) : Nat × Nat :=
  let first := byteAt bytes off
  let len := 2 ^ (first >>> 6)
  if maxBytes < len then (0, 0)
  else (len, (List.range (len - 1)).foldl (fun v i => v * 256 + byteAt bytes (off + 1 + i)) (first &&& 0x3F))

/-! ## Packet header data model -/

/-- Modelled from the spec §3 (the enumeration lives in picoquic_internal.h,
outside src/): the packet types, with `error` as the zero member, which is
the value left in place by the parser's `memset` initialisation. -/
inductive PType where
  | error
  | version_negotiation
  | initial
  | retry
  | handshake
  | zero_rtt
  | one_rtt_phi0
  | one_rtt_phi1
deriving DecidableEq, Repr

/-- Modelled from the repository's packet-context enumeration (outside
src/): `pc` index of the Application space. -/
def picoquic_packet_context_application : Nat := 0

/-- Modelled from the repository's packet-context enumeration (outside
src/): `pc` index of the Handshake space. -/
def picoquic_packet_context_handshake : Nat := 1

/-- Modelled from the repository's packet-context enumeration (outside
src/): `pc` index of the Initial space. -/
def picoquic_packet_context_initial : Nat := 2

/-- Embedding of `picoquic_packet_header`.  The defaults are the state
after the parser's `memset(ph, 0, ...)` followed by
`ph->version_index = -1` (packet.c lines 57-58). -/
structure PacketHeader where
  ptype : PType := .error
  vn : Nat := 0
  version_index : Int := -1
  dest_cnx_id : CnxId := {}
  srce_cnx_id : CnxId := {}
  token_length : Nat := 0
  token_offset : Nat := 0
  offset : Nat := 0
  pn_offset : Nat := 0
  pn : Nat := 0
  pn64 : Nat := 0
  pnmask : Nat := 0
  payload_length : Nat := 0
  epoch : Nat := 0
  pc : Nat := 0
  has_spin_bit : Bool := false
  spin : Nat := 0
deriving DecidableEq, Repr

/-! ## Connections and registry -/

/-- Connection states of the handshake/teardown machine (spec §4.7). -/
inductive CnxState where
  | client_init
  | client_init_sent
  | client_init_resent
  | client_handshake_start
  | client_handshake_progress
  | client_almost_ready
  | client_ready
  | server_init
  | server_handshake
  | server_almost_ready
  | server_ready
  | closing_received
  | closing
  | draining
  | disconnected
deriving DecidableEq, Repr

/-- Per packet-number-space context of a path: send sequence, largest
received (`first_sack_item.end_of_sack_range`), the `ack_needed` flag and
the duplicate-detection receive set (spec §4.8; the sack-list container
itself lives outside src/). -/
structure PktCtx where
  send_sequence : Nat := 0
  end_of_sack_range : Nat := 0
  ack_needed : Nat := 0
  recv_set : List Nat := []
deriving DecidableEq, Repr

/-- Connection model: the fields of `picoquic_cnx_t` and of its `path[0]`
that the reception core reads or writes.  The model carries the single
path `path[0]`; `reset_callback_done` records that the `StatelessReset`
up-call fired. -/
structure Cnx where
  client_mode : Bool := false
  cnx_state : CnxState := .server_init
  initial_cnxid : CnxId := {}
  local_cnxid : CnxId := {}
  remote_cnxid : CnxId := {}
  peer_addr : Nat := 0
  reset_secret : List Nat := List.replicate 16 0
  version_index : Int := 0
  pkt_ctx : List PktCtx := [{}, {}, {}]
  reset_callback_done : Bool := false
deriving DecidableEq, Repr

def cnxDefault : Cnx := {}

abbrev Registry := List Cnx

def regGet (reg : Registry) (i : Nat) : Cnx := reg.getD i cnxDefault

def getPktCtx (c : Cnx) (pc : Nat) : PktCtx := c.pkt_ctx.getD pc {}

def setPktCtx (c : Cnx) (pc : Nat) (k : PktCtx) : Cnx :=
  { c with pkt_ctx := c.pkt_ctx.set pc k }

/-- Endpoint-wide context: the fields of `picoquic_quic_t` the reception
core reads (the callers always pass a non-null `quic`). -/
structure QuicCtx where
  local_ctx_length : Nat := 0
deriving DecidableEq, Repr

/-- Modelled from the spec §6 registry interface (`by_id`, outside src/):
lookup of a connection by a locally issued connection id. -/
def picoquic_cnx_by_id (reg : Registry) (cid : CnxId) : Option Nat :=
  reg.findIdx? (fun c => c.local_cnxid = cid)

/-- Modelled from the spec §6 registry interface (`by_peer_addr`, outside
src/): lookup of a connection by the peer's address. -/
def picoquic_cnx_by_net (reg : Registry) (addr : Nat) : Option Nat :=
  reg.findIdx? (fun c => c.peer_addr = addr)

/-- Version table environment: `picoquic_get_version_index` and the
`version_header_encoding` test of the supported-versions table (process
globals outside src/, recast per spec §9 as a configuration value). -/
structure VersionEnv where
  getVersionIndex : Nat → Int
  encodingIs29 : Int → Bool

/-! ## Constants (picoquic headers, outside src/) -/

/-- Modelled from the spec (S2: enforced MTU of 1200). -/
def PICOQUIC_ENFORCED_INITIAL_MTU : Nat := 1200

/-- Modelled from the spec and the source comment at packet.c lines
656-659: one type byte, at least 20 random bytes, 16 secret bytes. -/
def PICOQUIC_RESET_PACKET_MIN_SIZE : Nat := 1 + 20 + 16

/-- Modelled from the spec: the reset secret is 16 bytes. -/
def PICOQUIC_RESET_SECRET_SIZE : Nat := 16

/-- Modelled from the spec §4.4: the header-protection sample is 16 bytes. -/
def picoquic_hp_iv_size : Nat := 16

/-- Modelled from the spec §7 error taxonomy: the internal error codes of
picoquic.h (outside src/).  The exact numeric values are immaterial; the
codes are distinct, nonzero and different from 1. -/
def PICOQUIC_ERROR_DUPLICATE : Int := 0x401

def PICOQUIC_ERROR_AEAD_CHECK : Int := 0x402

def PICOQUIC_ERROR_INITIAL_TOO_SHORT : Int := 0x403

def PICOQUIC_ERROR_UNEXPECTED_PACKET : Int := 0x404

def PICOQUIC_ERROR_FNV1A_CHECK : Int := 0x405

def PICOQUIC_ERROR_CNXID_CHECK : Int := 0x406

def PICOQUIC_ERROR_RETRY : Int := 0x407

def PICOQUIC_ERROR_DETECTED : Int := 0x408

def PICOQUIC_ERROR_CONNECTION_DELETED : Int := 0x409

def PICOQUIC_ERROR_CNXID_SEGMENT : Int := 0x40A

def PICOQUIC_ERROR_STATELESS_RESET : Int := 0x40B

def PICOQUIC_ERROR_SPURIOUS_REPEAT : Int := 0x40C

def PICOQUIC_ERROR_MEMORY : Int := 0x40D

/-! ## Header parser (packet.c lines 44-298) -/

structure ParseResult where
  ret : Int
  ph : PacketHeader
  pcnx : Option Nat
deriving DecidableEq, Repr

/-- Stage of `picoquic_parse_packet_header`: the version-dependent type
switch for long headers with a nonzero version (packet.c lines 114-182).
`ph1` holds the version and the offset just past the connection ids. -/
def picoquic_parse_long_type_switch (env : VersionEnv) (bytes : List Nat)
    (ph1 : PacketHeader) : PacketHeader :=
  let length := bytes.length
  let ptypeBits := (byteAt bytes 0 >>> 4) &&& 3
  let vi := env.getVersionIndex ph1.vn
  if 0 ≤ vi then
    if env.encodingIs29 vi then
      if ptypeBits = 0 then
        -- initial: retry token between header and payload (lines 128-151)
        let tv := picoquic_varint_decode bytes ph1.offset (sub32 length ph1.offset)
        if tv.1 = 0 then
          { ph1 with
            version_index := vi, ptype := .error, pc := 0, epoch := 0
            offset := length }
        else
          { ph1 with
            version_index := vi, ptype := .initial
            pc := picoquic_packet_context_initial, epoch := 0
            token_length := tv.2, token_offset := ph1.offset + tv.1
            offset := u32 (ph1.offset + tv.1 + tv.2) }
      else if ptypeBits = 1 then
        { ph1 with
          version_index := vi, ptype := .zero_rtt
          pc := picoquic_packet_context_application, epoch := 1 }
      else if ptypeBits = 2 then
        { ph1 with
          version_index := vi, ptype := .handshake
          pc := picoquic_packet_context_handshake, epoch := 2 }
      else
        -- ptypeBits = 3; the C default branch is unreachable for a 2-bit value
        { ph1 with
          version_index := vi, ptype := .retry
          pc := picoquic_packet_context_initial, epoch := 0 }
    else
      -- recognized version, unsupported encoding (lines 174-180)
      { ph1 with version_index := -1, ptype := .error, pc := 0 }
  else
    -- unsupported version: the switch is skipped, ptype keeps the zero default
    { ph1 with version_index := env.getVersionIndex ph1.vn }

/-- Stage of `picoquic_parse_packet_header`: the payload-length
computation for long headers (packet.c lines 184-204); `pn_length_clear`
of the C code is the constant 0 and is folded into the length check.
Returns the updated header, the local `payload_length` and `var_length`.
This is the guarded varint decode of lines 194-197. -/
def payload_varint (bytes : List Nat) (off : Nat) : Nat × Nat :=
  if off < bytes.length then picoquic_varint_decode bytes off (bytes.length - off)
  else (0, 0)

/-- Stage of `picoquic_parse_packet_header` (continued): the
payload-length checks of packet.c lines 193-204 with the guarded varint
decode of lines 194-197 factored as `payload_varint`. -/
def picoquic_parse_long_payload (bytes : List Nat) (ph2 : PacketHeader) :
    PacketHeader × Nat × Nat :=
  let length := bytes.length
  if ph2.ptype = .retry then
    if length > ph2.offset then
      -- (uint16_t)length - ph->offset, computed in uint32 arithmetic
      (ph2, ((length % U16) + U32 - ph2.offset % U32) % U32, 0)
    else ({ ph2 with ptype := .error }, 0, 0)
  else
    let vd := payload_varint bytes ph2.offset
    if vd.1 = 0 ∨ ph2.offset + vd.1 + vd.2 > length ∨ ph2.version_index < 0 then
      ({ ph2 with
         ptype := .error
         payload_length := u16 (if length > ph2.offset then length - ph2.offset else 0) },
       vd.2, vd.1)
    else (ph2, vd.2, vd.1)

/-- Stage of `picoquic_parse_packet_header`: the final field assignments
and the connection lookup for long headers (packet.c lines 206-240). -/
def picoquic_parse_long_finish (reg : Registry) (addr_from : Nat) (pcnx0 : Option Nat)
    (pr : PacketHeader × Nat × Nat) : ParseResult :=
  let ph3 := pr.1
  if ¬ (ph3.ptype = .error) then
    let ph4 := { ph3 with
                 payload_length := u16 pr.2.1
                 offset := u32 (ph3.offset + pr.2.2)
                 pn_offset := u32 (ph3.offset + pr.2.2) }
    let lk :=
      match pcnx0 with
      | some i => (some i, false)
      | none =>
        match picoquic_cnx_by_id reg ph4.dest_cnx_id with
        | some i => (some i, false)
        | none =>
          match picoquic_cnx_by_net reg addr_from with
          | some j => (some j, true)
          | none => ((none : Option Nat), false)
    let pcnx2 :=
      if lk.2 then
        match lk.1 with
        | some j =>
          if ph4.ptype = .initial ∨ ph4.ptype = .zero_rtt then
            if (regGet reg j).initial_cnxid = ph4.dest_cnx_id then some j else none
          else none
        | none => none
      else lk.1
    ⟨0, ph4, pcnx2⟩
  else ⟨0, ph3, pcnx0⟩

/-- Stage of `picoquic_parse_packet_header`: version-negotiation packets
(packet.c lines 95-113). -/
def picoquic_parse_long_vneg (reg : Registry) (addr_from : Nat) (pcnx0 : Option Nat)
    (length : Nat) (ph1 : PacketHeader) : ParseResult :=
  let ph2 := { ph1 with
               ptype := .version_negotiation
               pc := picoquic_packet_context_initial
               payload_length := u16 (if length > ph1.offset then length - ph1.offset else 0) }
  let pcnx1 :=
    match pcnx0 with
    | some i => some i
    | none =>
      if ph2.dest_cnx_id.len > 0 then picoquic_cnx_by_id reg ph2.dest_cnx_id
      else
        match picoquic_cnx_by_net reg addr_from with
        | some j => if ¬ ((regGet reg j).local_cnxid.len = 0) then none else some j
        | none => none
  ⟨0, ph2, pcnx1⟩

/-- Stage of `picoquic_parse_packet_header`: short headers (packet.c
lines 244-295). -/
def picoquic_parse_short_header (env : VersionEnv) (quic : QuicCtx) (reg : Registry)
    (bytes : List Nat) (addr_from : Nat) (pcnx0 : Option Nat) (receiving : Nat) :
    ParseResult :=
  let length := bytes.length
  let cnxid_length :=
    if receiving = 0 ∧ pcnx0.isSome then (regGet reg (pcnx0.getD 0)).remote_cnxid.len
    else quic.local_ctx_length
  let ph1 : PacketHeader := { pc := picoquic_packet_context_application }
  if 1 + cnxid_length ≤ length then
    let d := picoquic_parse_connection_id bytes 1 cnxid_length
    let ph2 := { ph1 with offset := 1 + d.2, dest_cnx_id := d.1 }
    let pcnx1 :=
      match pcnx0 with
      | some i => some i
      | none =>
        if quic.local_ctx_length > 0 then picoquic_cnx_by_id reg ph2.dest_cnx_id
        else picoquic_cnx_by_net reg addr_from
    match pcnx1 with
    | some ci =>
      let c := regGet reg ci
      let ph3 := { ph2 with epoch := 3, version_index := c.version_index }
      let ph4 :=
        if env.encodingIs29 c.version_index then
          { ph3 with
            has_spin_bit := true, ptype := .one_rtt_phi0
            spin := (byteAt bytes 0 >>> 5) &&& 1
            pn_offset := ph3.offset, pn := 0, pnmask := 0 }
        else ph3
      if length < ph4.offset then ⟨-1, { ph4 with payload_length := 0 }, pcnx1⟩
      else ⟨0, { ph4 with payload_length := u16 (length - ph4.offset) }, pcnx1⟩
    | none =>
      -- this may be a packet to a forgotten connection (lines 291-294);
      -- the source leaves ptype at the zero default here
      ⟨0, { ph2 with payload_length := u16 (if length > ph2.offset then length - ph2.offset else 0) },
       none⟩
  else
    ⟨0, { ph1 with ptype := .error, offset := length, payload_length := 0 }, pcnx0⟩

/-- Embedding of `picoquic_parse_packet_header` (packet.c lines 44-298).
The `receiving` flag and the incoming `*pcnx` are parameters as in C; the
registry is read-only here. -/
def picoquic_parse_packet_header (env : VersionEnv) (quic : QuicCtx) (reg : Registry)
    (bytes : List Nat) (addr_from : Nat) (pcnx0 : Option Nat) (receiving : Nat) :
    ParseResult :=
  let length := bytes.length
  let ph0 : PacketHeader := {}
  if length = 0 then ⟨-1, ph0, pcnx0⟩
  else if ¬ (byteAt bytes 0 &&& 0x40 = 0x40) then
    -- fixed-bit violation (lines 64-69)
    ⟨0, { ph0 with ptype := .error, offset := length, payload_length := 0 }, pcnx0⟩
  else if byteAt bytes 0 &&& 0x80 = 0x80 then
    -- long header (lines 72-243)
    if length < 7 then ⟨-1, ph0, pcnx0⟩
    else
      let vn := byteAt bytes 1 * 0x1000000 + byteAt bytes 2 * 0x10000 +
                byteAt bytes 3 * 0x100 + byteAt bytes 4
      let l_dest_id := byteAt bytes 5
      if 6 + l_dest_id + 1 > length then ⟨-1, { ph0 with vn := vn }, pcnx0⟩
      else
        let d := picoquic_parse_connection_id bytes 6 l_dest_id
        let offA := 6 + d.2
        let l_srce_id := byteAt bytes offA
        let s := picoquic_parse_connection_id bytes (offA + 1) l_srce_id
        let offB := offA + 1 + s.2
        let ph1 := { ph0 with vn := vn, dest_cnx_id := d.1, srce_cnx_id := s.1, offset := offB }
        if vn = 0 then picoquic_parse_long_vneg reg addr_from pcnx0 length ph1
        else
          picoquic_parse_long_finish reg addr_from pcnx0
            (picoquic_parse_long_payload bytes (picoquic_parse_long_type_switch env bytes ph1))
  else
    picoquic_parse_short_header env quic reg bytes addr_from pcnx0 receiving

/-! ## Header-protection removal and AEAD (packet.c lines 331-418) -/

/-- Packet-number byte loop of `picoquic_decrypt_packet` (packet.c lines
377-383): for each of `k` packet-number bytes, XOR the mask byte `i` into
the buffer, accumulate `pn_val` big-endian, advance `offset` and shift
`pnmask` left by 8 (on `uint64_t`).  `pn_val` is a `uint32_t` that cannot
wrap for at most 4 bytes.  State: `(bytes, offset, pn_val, pnmask)`. -/
def pn_unmask_loop (mask : List Nat) : Nat → Nat → List Nat × Nat × Nat × Nat → List Nat × Nat × Nat × Nat
  | _, 0, st => st
  | i, k + 1, (bytes, off, pnv, pnm) =>
    let b := (byteAt bytes off) ^^^ (byteAt mask i)
    pn_unmask_loop mask (i + 1) k (bytes.set off b, off + 1, pnv * 256 + b, (pnm <<< 8) % U64)

/-- Modelled from the spec §4.8 (the sack-list membership test lives
outside src/): a packet number is already received iff it is in the
receive set of its space. -/
def picoquic_is_pn_already_received (c : Cnx) (pc pn64 : Nat) : Bool :=
  (getPktCtx c pc).recv_set.contains pn64

structure DecryptResult where
  decoded : Nat
  ph : PacketHeader
  bytes : List Nat
  already_received : Bool
deriving DecidableEq, Repr

/-- Embedding of `picoquic_decrypt_packet` (packet.c lines 331-418).  The
header-protection primitive `picoquic_hp_encrypt` is the oracle `hp_dec`
(a 16-byte sample to a 5-byte mask); `picoquic_aead_decrypt_generic` is
the oracle `aead_decrypt` (ciphertext, packet number, additional data to
a decoded length, with failure signalled by a value above the input
length).  `with_already` models `already_received != NULL`; the reception
call sites always pass a non-null pointer.  The model carries the single
`path[0]`, so the `path_from` fallback of lines 339-341 is the identity. -/
def picoquic_decrypt_packet (c : Cnx) (bytes : List Nat) (ph : PacketHeader)
    (hp_dec : Option (List Nat → List Nat)) (aead_decrypt : List Nat → Nat → List Nat → Nat)
    (with_already : Bool) : DecryptResult :=
  let length := ph.offset + ph.payload_length
  let st1 : PacketHeader × List Nat :=
    match hp_dec with
    | some hp =>
      let sample_offset := ph.pn_offset + 4
      if sample_offset + picoquic_hp_iv_size > length then
        -- invalid packet format (lines 354-362)
        ({ ph with pn := 0xFFFFFFFF, pnmask := 0xFFFFFFFF00000000, offset := ph.pn_offset }, bytes)
      else
        let first_byte := byteAt bytes 0
        let first_mask := if first_byte &&& 0x80 = 0x80 then 0x0F else 0x1F
        let mask := hp ((bytes.drop sample_offset).take picoquic_hp_iv_size)
        let fb := first_byte ^^^ ((byteAt mask 0) &&& first_mask)
        let pn_l := (fb &&& 3) + 1
        let lr := pn_unmask_loop mask 1 pn_l (bytes.set 0 fb, ph.offset, 0, U64 - 1)
        let ph2 : PacketHeader := { ph with
          pnmask := lr.2.2.2
          pn := lr.2.2.1
          offset := lr.2.1
          payload_length := u16 (ph.payload_length + U16 - pn_l) }
        let ph3 :=
          if ph2.ptype = .one_rtt_phi0 then
            { ph2 with ptype := if (fb >>> 2) &&& 1 = 1 then PType.one_rtt_phi1 else PType.one_rtt_phi0 }
          else ph2
        (ph3, lr.1)
    | none =>
      -- header-protection key not installed (lines 392-399)
      ({ ph with pn := 0xFFFFFFFF, pnmask := 0xFFFFFFFF00000000, offset := ph.pn_offset }, bytes)
  let phA := st1.1
  let bytesA := st1.2
  let reference :=
    if with_already then (getPktCtx c phA.pc).end_of_sack_range
    else (getPktCtx c phA.pc).send_sequence
  let phB := { phA with pn64 := picoquic_get_packet_number64 reference phA.pnmask phA.pn }
  let already := with_already && picoquic_is_pn_already_received c phB.pc phB.pn64
  let decoded := aead_decrypt ((bytesA.drop phB.offset).take phB.payload_length) phB.pn64
                   (bytesA.take phB.offset)
  ⟨decoded, phB, bytesA, already⟩

/-! ## Parse-and-decrypt pipeline (packet.c lines 444-563) -/

/-- Receive-side key material: `crypto_context[e].hp_dec` and
`crypto_context[e].aead_decrypt` per epoch, external collaborators per
spec §1, carried as oracles. -/
structure CryptoBundle where
  hp_dec : Nat → Option (List Nat → List Nat)
  aead_decrypt : Nat → List Nat → Nat → List Nat → Nat

/-- Modelled from the spec §3 and §4.5 (`picoquic_create_cnx` lives
outside src/): server-side creation from an Initial registers a fresh
connection with `initial_cnxid := dcid`, `remote_cnxid := scid` and the
peer's address.  The endpoint-chosen local id and the key schedule are
outside the model, and allocation failure is not modelled.  Returns the
new registry and the new connection's index. -/
def picoquic_create_cnx (reg : Registry) (dcid scid : CnxId) (addr vn : Nat)
    (env : VersionEnv) : Registry × Nat :=
  (reg ++ [{ client_mode := false
             cnx_state := .server_init
             initial_cnxid := dcid
             remote_cnxid := scid
             peer_addr := addr
             version_index := env.getVersionIndex vn }],
   reg.length)

/-- Modelled from the spec §6 registry interface (`delete`, outside src/). -/
def picoquic_delete_cnx (reg : Registry) (i : Nat) : Registry := reg.eraseIdx i

/-- Embedding of `get_incoming_path` (packet.c lines 423-434): `path[0]`
when the destination id matches the initial or the local connection id,
`NULL` otherwise.  The model carries `path[0]` inside `Cnx`, so the
result is the Boolean "a path was found". -/
def picoquic_get_incoming_path (ph : PacketHeader) (c : Cnx) : Bool :=
  ph.dest_cnx_id == c.initial_cnxid || ph.dest_cnx_id == c.local_cnxid

/-- Outcome of the decrypt dispatch switch (packet.c lines 487-527):
decoded length, updated header and buffer, the duplicate flag, the error
override of the `default` branch, the running `length` value and the
consumed count (both recomputed for Initial packets, lines 495-496). -/
structure DecDispatch where
  decoded : Nat
  ph : PacketHeader
  bytes : List Nat
  already_received : Bool
  retOverride : Option Int
  plen : Nat
  consumed : Nat
deriving DecidableEq, Repr

/-- Embedding of the decrypt dispatch switch of
`picoquic_parse_header_and_decrypt` (packet.c lines 487-527): select the
key-schedule epoch from the packet type and decrypt in place. -/
def phd_decrypt_dispatch (crypto : CryptoBundle) (c : Cnx) (bytes : List Nat)
    (ph : PacketHeader) (length : Nat) : DecDispatch :=
  match ph.ptype with
  | .version_negotiation =>
    -- packet is not encrypted
    ⟨0, ph, bytes, false, none, length, length⟩
  | .initial =>
    let r := picoquic_decrypt_packet c bytes ph (crypto.hp_dec 0) (crypto.aead_decrypt 0) true
    let len2 := r.ph.offset + r.ph.payload_length
    ⟨r.decoded, r.ph, r.bytes, r.already_received, none, len2, len2⟩
  | .retry =>
    -- packet is not encrypted, no sequence number
    ⟨ph.payload_length, { ph with pn := 0, pn64 := 0, pnmask := 0 }, bytes, false, none, length, length⟩
  | .handshake =>
    let r := picoquic_decrypt_packet c bytes ph (crypto.hp_dec 2) (crypto.aead_decrypt 2) true
    ⟨r.decoded, r.ph, r.bytes, r.already_received, none, length, length⟩
  | .zero_rtt =>
    let r := picoquic_decrypt_packet c bytes ph (crypto.hp_dec 1) (crypto.aead_decrypt 1) true
    ⟨r.decoded, r.ph, r.bytes, r.already_received, none, length, length⟩
  | .one_rtt_phi0 =>
    let r := picoquic_decrypt_packet c bytes ph (crypto.hp_dec 3) (crypto.aead_decrypt 3) true
    ⟨r.decoded, r.ph, r.bytes, r.already_received, none, length, length⟩
  | .one_rtt_phi1 =>
    let r := picoquic_decrypt_packet c bytes ph (crypto.hp_dec 3) (crypto.aead_decrypt 3) true
    ⟨r.decoded, r.ph, r.bytes, r.already_received, none, length, length⟩
  | .error =>
    -- packet type error (default branch)
    ⟨0, ph, bytes, false, some PICOQUIC_ERROR_DETECTED, length, length⟩

structure PHDResult where
  ret : Int
  ph : PacketHeader
  pcnx : Option Nat
  reg : Registry
  bytes : List Nat
  consumed : Nat
  new_context_created : Bool
deriving DecidableEq, Repr

/-- Post-parse stage of `picoquic_parse_header_and_decrypt` (packet.c
lines 461-560), taking the parser's output. -/
def picoquic_parse_header_and_decrypt_post (env : VersionEnv) (crypto : CryptoBundle)
    (reg : Registry) (bytes : List Nat) (packet_length addr_from : Nat)
    (pres : ParseResult) : PHDResult :=
  if ¬ (pres.ret = 0) then ⟨pres.ret, pres.ph, pres.pcnx, reg, bytes, 0, false⟩
  else
    let ph := pres.ph
    let length := ph.offset + ph.payload_length
    -- lines 467-481: Initial admission (minimum MTU) and context creation
    let adm : Int × Registry × Option Nat × Bool :=
      if ph.ptype = .initial then
        let ret1 : Int :=
          if (pres.pcnx = none ∨ (regGet reg (pres.pcnx.getD 0)).client_mode = false)
             ∧ packet_length < PICOQUIC_ENFORCED_INITIAL_MTU
          then PICOQUIC_ERROR_INITIAL_TOO_SHORT else 0
        if ret1 = 0 ∧ pres.pcnx = none then
          let cr := picoquic_create_cnx reg ph.dest_cnx_id ph.srce_cnx_id addr_from ph.vn env
          (0, cr.1, some cr.2, true)
        else (ret1, reg, pres.pcnx, false)
      else (0, reg, pres.pcnx, false)
    let retA := adm.1
    let regA := adm.2.1
    let created := adm.2.2.2
    match adm.2.2.1 with
    | some ci =>
      let e := phd_decrypt_dispatch crypto (regGet regA ci) bytes ph length
      let retB := e.retOverride.getD retA
      if e.decoded > sub64 e.plen e.ph.offset then
        -- AEAD check failure (lines 530-537)
        if created then
          ⟨PICOQUIC_ERROR_AEAD_CHECK, e.ph, none, picoquic_delete_cnx regA ci, e.bytes, e.consumed, false⟩
        else
          ⟨PICOQUIC_ERROR_AEAD_CHECK, e.ph, some ci, regA, e.bytes, e.consumed, created⟩
      else if e.already_received then
        ⟨PICOQUIC_ERROR_DUPLICATE, e.ph, some ci, regA, e.bytes, e.consumed, created⟩
      else
        ⟨retB, { e.ph with payload_length := u16 e.decoded }, some ci, regA, e.bytes, e.consumed, created⟩
    | none =>
      -- lines 545-559: stateless-reset candidate
      if ph.ptype = .one_rtt_phi0 ∨ ph.ptype = .one_rtt_phi1 then
        match picoquic_cnx_by_net regA addr_from with
        | some cj =>
          if PICOQUIC_RESET_PACKET_MIN_SIZE ≤ length ∧
             (bytes.take length).drop (length - PICOQUIC_RESET_SECRET_SIZE)
               = (regGet regA cj).reset_secret then
            ⟨PICOQUIC_ERROR_STATELESS_RESET, ph, some cj, regA, bytes, length, created⟩
          else ⟨retA, ph, none, regA, bytes, length, created⟩
        | none => ⟨retA, ph, none, regA, bytes, length, created⟩
      else ⟨retA, ph, none, regA, bytes, length, created⟩

/-- Embedding of `picoquic_parse_header_and_decrypt` (packet.c lines
444-563), composed from the parser (called with `receiving = 1`, line
459) and the post stage. -/
def picoquic_parse_header_and_decrypt (env : VersionEnv) (quic : QuicCtx)
    (crypto : CryptoBundle) (reg : Registry) (bytes : List Nat)
    (packet_length addr_from : Nat) (pcnx0 : Option Nat) : PHDResult :=
  picoquic_parse_header_and_decrypt_post env crypto reg bytes packet_length addr_from
    (picoquic_parse_packet_header env quic reg bytes addr_from pcnx0 1)

/-! ## Segment dispatcher (packet.c lines 1253-1459) -/

inductive SPKind where
  | vneg
  | reset
deriving DecidableEq, Repr

/-- Queued stateless packet: its kind and connection ids.  The byte
layout, random padding and addressing of `picoquic_stateless_packet_t`
are outside the model. -/
structure StatelessPacket where
  kind : SPKind
  dest_cnx_id : CnxId
  srce_cnx_id : CnxId
deriving DecidableEq, Repr

/-- Endpoint state the reception core mutates: the connection registry
and the queue of stateless packets. -/
structure EndpointState where
  reg : Registry
  queue : List StatelessPacket
deriving DecidableEq, Repr

def updateCnx (st : EndpointState) (i : Nat) (f : Cnx → Cnx) : EndpointState :=
  { st with reg := st.reg.set i (f (regGet st.reg i)) }

/-- Embedding of `picoquic_prepare_version_negotiation` (packet.c lines
606-650): queue a version-negotiation packet whose connection ids are the
incoming ids reversed; its byte layout and addresses are outside the
model. -/
def picoquic_prepare_version_negotiation (st : EndpointState) (ph : PacketHeader) : EndpointState :=
  { st with queue := st.queue ++ [⟨.vneg, ph.srce_cnx_id, ph.dest_cnx_id⟩] }

/-- Embedding of `picoquic_process_unexpected_cnxid` (packet.c lines
661-704): queue a stateless-reset packet when the segment is long enough
and carries a 1-RTT type. -/
def picoquic_process_unexpected_cnxid (st : EndpointState) (length : Nat)
    (ph : PacketHeader) : EndpointState :=
  if PICOQUIC_RESET_PACKET_MIN_SIZE < length ∧
     (ph.ptype = .one_rtt_phi0 ∨ ph.ptype = .one_rtt_phi1) then
    { st with queue := st.queue ++ [⟨.reset, ph.dest_cnx_id, picoquic_null_connection_id⟩] }
  else st

/-- Embedding of `picoquic_incoming_stateless_reset` (packet.c lines
1052-1063): transition the connection to `Disconnected`, fire the
`StatelessReset` up-call and return `PICOQUIC_ERROR_AEAD_CHECK`. -/
def picoquic_incoming_stateless_reset (st : EndpointState) (ci : Nat) : Int × EndpointState :=
  (PICOQUIC_ERROR_AEAD_CHECK,
   updateCnx st ci (fun c => { c with cnx_state := .disconnected, reset_callback_done := true }))

/-- Modelled from the spec §4.8 (`picoquic_record_pn_received` lives
outside src/): insert the packet number into the receive set of its
space on `path[0]` and update the largest-received mark; returns 0.  The
source's range-merging is a representation detail the model's plain set
does not need. -/
def picoquic_record_pn_received (st : EndpointState) (ci pc pn64 : Nat) : Int × EndpointState :=
  (0, updateCnx st ci (fun c =>
    let k := getPktCtx c pc
    setPktCtx c pc { k with
      recv_set := pn64 :: k.recv_set
      end_of_sack_range := max k.end_of_sack_range pn64 }))

/-- Per-type handler oracles.  The bodies of `picoquic_incoming_initial`,
`picoquic_incoming_server_cleartext`, `picoquic_incoming_client_cleartext`,
`picoquic_incoming_retry`, `picoquic_incoming_0rtt` and
`incoming_encrypted` drive the frame decoder and the TLS engine,
collaborators the spec (§1, §6) places outside the core; their effect on
the endpoint state is abstracted as parameters.  Each receives the
connection index, the decrypted header and the state; `on_initial`
additionally receives `new_context_created`. -/
structure Handlers where
  on_version_negotiation : Nat → PacketHeader → EndpointState → Int × EndpointState
  on_initial : Nat → PacketHeader → Bool → EndpointState → Int × EndpointState
  on_server_cleartext : Nat → PacketHeader → EndpointState → Int × EndpointState
  on_client_cleartext : Nat → PacketHeader → EndpointState → Int × EndpointState
  on_retry : Nat → PacketHeader → EndpointState → Int × EndpointState
  on_zero_rtt : Nat → PacketHeader → EndpointState → Int × EndpointState
  on_encrypted : Nat → PacketHeader → EndpointState → Int × EndpointState

/-- Embedding of `picoquic_incoming_segment` (packet.c lines 1253-1459).
Logging, the plugin hooks (`picoquic_received_packet`,
`picoquic_header_parsed`, the transport-parameter plugin negotiation of
lines 1451-1456) and the wake-timer update of line 1414 are outside the
model per spec §1; the `previous_dest_id` bookkeeping of lines 1279-1291
has no observable effect because the coalescing id check is commented out
in the source.  Returns `(ret, consumed, state)`. -/
def picoquic_incoming_segment (env : VersionEnv) (quic : QuicCtx) (crypto : CryptoBundle)
    (H : Handlers) (bytes : List Nat) (packet_length addr_from : Nat)
    (st : EndpointState) : Int × Nat × EndpointState :=
  let length := bytes.length
  let pr := picoquic_parse_header_and_decrypt env quic crypto st.reg bytes packet_length addr_from none
  let ph := pr.ph
  let st1 : EndpointState := { reg := pr.reg, queue := st.queue }
  let step2 : Int × EndpointState :=
    if pr.ret = 0 then
      match pr.pcnx with
      | none =>
        if ph.version_index < 0 ∧ ¬ (ph.vn = 0) then
          -- lines 1298-1301: version negotiation response
          (0, picoquic_prepare_version_negotiation st1 ph)
        else
          -- lines 1302-1308
          (PICOQUIC_ERROR_DETECTED,
           if ¬ (picoquic_is_connection_id_null ph.dest_cnx_id) then
             picoquic_process_unexpected_cnxid st1 length ph
           else st1)
      | some ci =>
        -- lines 1321-1396: per-type dispatch
        match ph.ptype with
        | .version_negotiation =>
          if (regGet st1.reg ci).cnx_state = .client_init_sent then
            H.on_version_negotiation ci ph st1
          else (PICOQUIC_ERROR_DETECTED, st1)
        | .initial =>
          let c := regGet st1.reg ci
          if ph.dest_cnx_id = c.initial_cnxid ∨ ph.dest_cnx_id = c.local_cnxid then
            let latch : Int × EndpointState :=
              if picoquic_is_connection_id_null c.remote_cnxid then
                (0, updateCnx st1 ci (fun x => { x with remote_cnxid := ph.srce_cnx_id }))
              else if ¬ (c.remote_cnxid = ph.srce_cnx_id) then
                (PICOQUIC_ERROR_UNEXPECTED_PACKET, st1)
              else (0, st1)
            if latch.1 = 0 then
              if c.client_mode = false then H.on_initial ci ph pr.new_context_created latch.2
              else H.on_server_cleartext ci ph latch.2
            else latch
          else (PICOQUIC_ERROR_DETECTED, st1)
        | .retry => H.on_retry ci ph st1
        | .handshake =>
          if (regGet st1.reg ci).client_mode then H.on_server_cleartext ci ph st1
          else H.on_client_cleartext ci ph st1
        | .zero_rtt => H.on_zero_rtt ci ph st1
        | .one_rtt_phi0 => H.on_encrypted ci ph st1
        | .one_rtt_phi1 => H.on_encrypted ci ph st1
        | .error => (PICOQUIC_ERROR_DETECTED, st1)
    else if pr.ret = PICOQUIC_ERROR_STATELESS_RESET then
      match pr.pcnx with
      | some ci => picoquic_incoming_stateless_reset st1 ci
      | none => (PICOQUIC_ERROR_STATELESS_RESET, st1)
    else (pr.ret, st1)
  let ret2 := step2.1
  let st2 := step2.2
  -- lines 1405-1445: acknowledgment bookkeeping and error mapping
  let fin : Int × EndpointState :=
    if ret2 = 0 ∨ ret2 = PICOQUIC_ERROR_SPURIOUS_REPEAT then
      match pr.pcnx with
      | some ci =>
        if ¬ ((regGet st2.reg ci).cnx_state = .disconnected) ∧
           ¬ (ph.ptype = .version_negotiation) then
          picoquic_record_pn_received st2 ci ph.pc ph.pn64
        else (ret2, st2)
      | none => (ret2, st2)
    else if ret2 = PICOQUIC_ERROR_DUPLICATE then
      match pr.pcnx with
      | some ci =>
        if picoquic_get_incoming_path ph (regGet st2.reg ci) then
          (-1, updateCnx st2 ci (fun c =>
            let k := getPktCtx c ph.pc
            setPktCtx c ph.pc { k with ack_needed := 1 }))
        else (-1, st2)  -- the source dereferences a null path here (undefined behaviour)
      | none => (-1, st2)
    else if ret2 = PICOQUIC_ERROR_AEAD_CHECK ∨ ret2 = PICOQUIC_ERROR_INITIAL_TOO_SHORT ∨
            ret2 = PICOQUIC_ERROR_UNEXPECTED_PACKET ∨ ret2 = PICOQUIC_ERROR_FNV1A_CHECK ∨
            ret2 = PICOQUIC_ERROR_CNXID_CHECK ∨ ret2 = PICOQUIC_ERROR_RETRY ∨
            ret2 = PICOQUIC_ERROR_DETECTED ∨ ret2 = PICOQUIC_ERROR_CONNECTION_DELETED ∨
            ret2 = PICOQUIC_ERROR_CNXID_SEGMENT then
      (-1, st2)
    else if ret2 = 1 then (-1, st2)
    else if ¬ (ret2 = 0) then (-1, st2)
    else (ret2, st2)
  (fin.1, pr.consumed, fin.2)

/-! ## Datagram loop (packet.c lines 1461-1492) -/

/-- Segment-processing procedure: from the datagram suffix at the current
offset, the datagram's total length (`packet_length`) and the state, to
`(ret, consumed, state)`. -/
abbrev SegProc (σ : Type) := List Nat → Nat → σ → Int × Nat × σ

/-- Embedding of the coalesced-segment loop of `picoquic_incoming_packet`
(packet.c lines 1476-1489), generic in the segment processor and the
endpoint state.  `fuel` bounds the iteration count: the C loop does not
terminate when a segment reports success without consuming bytes, and
the model returns `none` there.  The trace records `(offset, ret)` for
each processed segment. -/
def picoquic_incoming_packet_loop {σ : Type} (S : SegProc σ) (bytes : List Nat)
    (L packetLen : Nat) :
    Nat → Nat → σ → List (Nat × Int) → Option (Int × σ × List (Nat × Int))
  | 0, _, _, _ => none
  | fuel + 1, idx, st, tr =>
    if idx < L then
      let r := S (bytes.drop idx) packetLen st
      if r.1 = 0 then
        picoquic_incoming_packet_loop S bytes L packetLen fuel (idx + r.2.1) r.2.2 (tr ++ [(idx, r.1)])
      else some (0, r.2.2, tr ++ [(idx, r.1)])
    else some (0, st, tr)

/-- Embedding of `picoquic_incoming_packet` (packet.c lines 1461-1492):
walk the datagram from offset 0, with `packet_length` the whole
datagram's length.  The fuel `bytes.length + 1` suffices whenever every
successful segment consumes at least one byte. -/
def picoquic_incoming_packet {σ : Type} (S : SegProc σ) (bytes : List Nat) (st : σ) :
    Option (Int × σ × List (Nat × Int)) :=
  picoquic_incoming_packet_loop S bytes bytes.length bytes.length (bytes.length + 1) 0 st []

/-- The segment processor realized by `picoquic_incoming_segment` for a
fixed environment, as invoked by the loop. -/
def segProcOf (env : VersionEnv) (quic : QuicCtx) (crypto : CryptoBundle) (H : Handlers)
    (addr_from : Nat) : SegProc EndpointState :=
  fun b packetLen st => picoquic_incoming_segment env quic crypto H b packetLen addr_from st

/-- Predicate on a trace: every processed segment except possibly the
last reported success. -/
def allButLastZero : List (Nat × Int) → Bool
  | [] => true
  | [_] => true
  | e :: rest => e.2 == 0 && allButLastZero rest

/-- The pnmask value built by the decryptor's byte loop for an `n`-byte
packet number: `n` left-shifts by 8 of the all-ones initialisation
(packet.c lines 374 and 383). -/
def decrypt_pnmask (n : Nat) : Nat := pnmask_shift_loop n (U64 - 1)

/-! ## Concrete instances used by witnesses and counterexamples -/

/-- Version environment with a single supported version 1 at index 0,
using the draft-29 header encoding. -/
def envTest : VersionEnv where
  getVersionIndex := fun v => if v = 1 then 0 else -1
  encodingIs29 := fun vi => vi == 0

def quicTest : QuicCtx := { local_ctx_length := 4 }

/-- Zero header-protection mask: unmasking is the identity. -/
def hpZero : List Nat → List Nat := fun _ => [0, 0, 0, 0, 0]

/-- AEAD oracle that accepts and returns a decoded length of 0. -/
def aeadZero : Nat → List Nat → Nat → List Nat → Nat := fun _ _ _ _ => 0

/-- Crypto bundle with no header-protection keys and accepting AEAD. -/
def cryptoNone : CryptoBundle where
  hp_dec := fun _ => none
  aead_decrypt := aeadZero

/-- Crypto bundle with no header-protection keys and failing AEAD
(decoded length far above any input). -/
def cryptoFail : CryptoBundle where
  hp_dec := fun _ => none
  aead_decrypt := fun _ _ _ _ => 99999

/-- Crypto bundle with zero header-protection masks and accepting AEAD. -/
def cryptoZeroMask : CryptoBundle where
  hp_dec := fun _ => some hpZero
  aead_decrypt := aeadZero

/-- Handler oracles that succeed without touching the state. -/
def handlersZero : Handlers where
  on_version_negotiation := fun _ _ st => (0, st)
  on_initial := fun _ _ _ st => (0, st)
  on_server_cleartext := fun _ _ st => (0, st)
  on_client_cleartext := fun _ _ st => (0, st)
  on_retry := fun _ _ st => (0, st)
  on_zero_rtt := fun _ _ st => (0, st)
  on_encrypted := fun _ _ st => (0, st)

/-- C3 instance: a live client connection bound to peer address 7 with a
known reset secret. -/
def cnxC3 : Cnx := { client_mode := true
                     cnx_state := .client_ready
                     local_cnxid := ⟨4, [1, 2, 3, 4]⟩
                     peer_addr := 7
                     reset_secret := [10, 11, 12, 13, 14, 15, 16, 17, 18, 19, 20, 21, 22, 23, 24, 25] }

def regC3 : Registry := [cnxC3]

/-- C3 instance: a 40-byte short-header datagram addressed to the unknown
connection id `[9,9,9,9]` whose trailing 16 bytes equal `cnxC3`'s reset
secret. -/
def dgramC3 : List Nat :=
  0x40 :: [9, 9, 9, 9] ++ List.replicate 19 0 ++
  [10, 11, 12, 13, 14, 15, 16, 17, 18, 19, 20, 21, 22, 23, 24, 25]

/-- C4 instances: an existing server connection whose local id is the
Initial's destination id. -/
def cnxC4 : Cnx := { client_mode := false
                     cnx_state := .server_handshake
                     local_cnxid := ⟨4, [9, 9, 9, 9]⟩
                     peer_addr := 9 }

def regC4 : Registry := [cnxC4]

/-- An 18-byte well-formed Initial segment for version 1: dcid
`[9,9,9,9]`, empty scid, empty token, 5-byte payload. -/
def segInitC4 : List Nat :=
  [0xC0, 0, 0, 0, 1, 4, 9, 9, 9, 9, 0, 0x00, 0x05, 1, 2, 3, 4, 5]

/-- C5 instances: a server connection whose Application receive set
already holds packet number 5. -/
def cnxC5 : Cnx := { client_mode := false
                     cnx_state := .server_ready
                     local_cnxid := ⟨4, [1, 2, 3, 4]⟩
                     peer_addr := 7
                     version_index := 0
                     pkt_ctx := [{ end_of_sack_range := 4, recv_set := [5] }, {}, {}] }

def regC5 : Registry := [cnxC5]

/-- A 30-byte short-header packet to `cnxC5` carrying the truncated
packet number 5 in one byte. -/
def dgramC5 : List Nat := 0x40 :: [1, 2, 3, 4] ++ [5] ++ List.replicate 24 0

def stC5 : EndpointState := ⟨regC5, []⟩

/-- C6 instance: a short-header packet header as produced by the parser,
for a direct run of the decryptor. -/
def phC6 : PacketHeader :=
  { ptype := .one_rtt_phi0, offset := 5, pn_offset := 5, payload_length := 25,
    pc := picoquic_packet_context_application, epoch := 3, version_index := 0,
    has_spin_bit := true }

def dgramC6 : List Nat := 0x40 :: [2, 2, 2, 2] ++ [7] ++ List.replicate 24 0

def cnxC6 : Cnx := { local_cnxid := ⟨4, [2, 2, 2, 2]⟩, peer_addr := 3 }

/-- C8 instance: an 18-byte Initial segment (version 1, dcid `[9,9,9,9]`)
followed by an 8-byte segment with the unsupported version `0x0a0a0a0a`. -/
def segInitC8 : List Nat :=
  [0xC0, 0, 0, 0, 1, 4, 9, 9, 9, 9, 0, 0x00, 0x05, 1, 2, 3, 4, 5]

def segVNC8 : List Nat := [0xC0, 0x0a, 0x0a, 0x0a, 0x0a, 0, 0, 0x00]

/-- C2 instance: a 16-byte Initial segment (version 1, dcid `[8,8,8,8]`)
followed by an 8-byte segment with the unsupported version `0x0b0b0b0b`. -/
def segInitC2 : List Nat :=
  [0xC0, 0, 0, 0, 1, 4, 8, 8, 8, 8, 0, 0x00, 0x03, 1, 2, 3]

def segVNC2 : List Nat := [0xC0, 0x0b, 0x0b, 0x0b, 0x0b, 0, 0, 0x00]

/-- C9 counterexample input: an 8-byte version-negotiation datagram whose
source-id length byte (20) runs past the end of the buffer. -/
def bytesC9 : List Nat := [0xC0, 0, 0, 0, 0, 0, 20, 0]

/-- Trivial segment processors for the loop witnesses. -/
def segProcConst : SegProc Nat := fun b _ st => (0, b.length, st)

def segProcErr : SegProc Nat := fun _ _ st => (-1, 0, st)

def segProcOne : SegProc Nat := fun _ _ st => (0, 1, st + 1)

/-! ## Bitwise helper lemmas -/

theorem land_high_mask (a w : Nat) (ha : a < 2 ^ 64) (hw : w ≤ 64) :
    a &&& (2 ^ 64 - 2 ^ w) = a / 2 ^ w * 2 ^ w := by
  have hmask : (2 : Nat) ^ 64 - 2 ^ w = (2 ^ (64 - w) - 1) <<< w := by
    rw [Nat.shiftLeft_eq, Nat.sub_mul, one_mul, ← Nat.pow_add]
    congr 2
    omega
  have hdm : a / 2 ^ w * 2 ^ w = (a >>> w) <<< w := by
    rw [Nat.shiftRight_eq_div_pow, Nat.shiftLeft_eq]
  apply Nat.eq_of_testBit_eq
  intro i
  rw [Nat.testBit_land, hmask, hdm, Nat.testBit_shiftLeft, Nat.testBit_shiftLeft,
    Nat.testBit_shiftRight, Nat.testBit_two_pow_sub_one]
  rcases Nat.lt_or_ge i w with hiw | hiw
  · simp [show ¬ (i ≥ w) from Nat.not_le.mpr hiw]
  · rcases Nat.lt_or_ge i 64 with h64 | h64
    · have hywi : w + (i - w) = i := by omega
      simp [hiw, hywi, show i - w < 64 - w from by omega]
    · have hbit : a.testBit i = false :=
        Nat.testBit_lt_two_pow (lt_of_lt_of_le ha (Nat.pow_le_pow_right (by norm_num) h64))
      have hbit2 : a.testBit (w + (i - w)) = false := by
        rwa [show w + (i - w) = i from by omega]
      simp [hbit, hbit2, show ¬ (i - w < 64 - w) from by omega]

theorem lor_low_disjoint (a b w : Nat) (ha : a % 2 ^ w = 0) (hb : b < 2 ^ w) :
    a ||| b = a + b := by
  have hpos : 0 < (2 : Nat) ^ w := Nat.pos_pow_of_pos w (by norm_num)
  obtain ⟨q, hq⟩ := Nat.dvd_of_mod_eq_zero ha
  subst hq
  apply Nat.eq_of_testBit_eq
  intro i
  rw [Nat.testBit_lor]
  rcases Nat.lt_or_ge i w with hiw | hiw
  · have hmod1 : (2 ^ w * q + b) % 2 ^ w = b := by
      rw [Nat.add_comm, Nat.mul_comm, Nat.add_mul_mod_self_right, Nat.mod_eq_of_lt hb]
    have hmod2 : (2 ^ w * q) % 2 ^ w = 0 := by
      rw [Nat.mul_comm, Nat.mul_mod_left]
    have h1 : (2 ^ w * q).testBit i = false := by
      have h := (Nat.testBit_mod_two_pow (2 ^ w * q) w i).symm
      rw [hmod2] at h
      simpa [hiw] using h
    have h2 : (2 ^ w * q + b).testBit i = b.testBit i := by
      have h := (Nat.testBit_mod_two_pow (2 ^ w * q + b) w i).symm
      rw [hmod1] at h
      simpa [hiw] using h
    rw [h1, h2]
    simp
  · have hb2 : b.testBit i = false :=
      Nat.testBit_lt_two_pow (lt_of_lt_of_le hb (Nat.pow_le_pow_right (by norm_num) hiw))
    have hpow : (2 : Nat) ^ i = 2 ^ w * 2 ^ (i - w) := by
      rw [← Nat.pow_add]
      congr 1
      omega
    have e1 : (2 ^ w * q + b) / 2 ^ i = q / 2 ^ (i - w) := by
      rw [hpow, ← Nat.div_div_eq_div_mul, Nat.mul_add_div hpos, Nat.div_eq_of_lt hb,
        Nat.add_zero]
    have e2 : (2 ^ w * q) / 2 ^ i = q / 2 ^ (i - w) := by
      rw [hpow, ← Nat.div_div_eq_div_mul]
      congr 1
      rw [Nat.mul_div_cancel_left _ hpos]
    have h2 : (2 ^ w * q + b).testBit i = (2 ^ w * q).testBit i := by
      rw [Nat.testBit_to_div_mod, Nat.testBit_to_div_mod, e1, e2]
    rw [h2, hb2]
    simp

/-- The fourth state component of the decryptor's byte loop is the
iterated shift of its initial value, independently of the buffer and the
mask. -/
theorem pn_unmask_loop_pnm (mask : List Nat) :
    ∀ (k i : Nat) (st : List Nat × Nat × Nat × Nat),
      (pn_unmask_loop mask i k st).2.2.2 = pnmask_shift_loop k st.2.2.2 := by
  intro k
  induction k with
  | zero =>
    intro i st
    obtain ⟨b, o, v, p⟩ := st
    rfl
  | succ k ih =>
    intro i st
    obtain ⟨b, o, v, p⟩ := st
    simp only [pn_unmask_loop, pnmask_shift_loop]
    exact ih (i + 1) _

/-! ## Packet-number reconstruction case lemmas -/

theorem getpn64_roundtrip_w8 (reference : Nat) (delta : Int) (href : reference < 2 ^ 62)
    (hlo : -(2 ^ 7 : Int) < delta) (hhi : delta < 2 ^ 7)
    (hnn : 0 ≤ (reference : Int) + delta) :
    picoquic_get_packet_number64 reference (2 ^ 64 - 2 ^ 8)
      (((reference : Int) + delta).toNat % 2 ^ 8) = ((reference : Int) + delta).toNat := by
  set T := ((reference : Int) + delta).toNat with hTdef
  have hT : (T : Int) = (reference : Int) + delta := Int.toNat_of_nonneg hnn
  have hElt : reference + 1 < 2 ^ 64 := by omega
  have hpn_lt : T % 2 ^ 8 < 2 ^ 8 := Nat.mod_lt _ (by norm_num)
  simp only [picoquic_get_packet_number64]
  have hmod_mask : (2 ^ 64 - 2 ^ 8) % U64 = 2 ^ 64 - 2 ^ 8 := by norm_num [U64]
  rw [hmod_mask]
  have hmodE : (reference + 1) % U64 = reference + 1 := Nat.mod_eq_of_lt (by norm_num [U64]; omega)
  rw [hmodE]
  have hnmpo : ((U64 - 1 - (2 ^ 64 - 2 ^ 8)) + 1) % U64 = 2 ^ 8 := by norm_num [U64]
  rw [hnmpo]
  have hpn32 : T % 2 ^ 8 % U32 = T % 2 ^ 8 := Nat.mod_eq_of_lt (by norm_num [U32]; omega)
  rw [hpn32]
  rw [land_high_mask (reference + 1) 8 hElt (by norm_num)]
  rw [lor_low_disjoint _ _ 8 (Nat.mul_mod_left _ _) hpn_lt]
  have hclt : (reference + 1) / 2 ^ 8 * 2 ^ 8 + T % 2 ^ 8 < 2 ^ 64 := by omega
  rw [land_high_mask _ 8 hclt (by norm_num)]
  simp only [U64]
  split_ifs <;> omega

theorem getpn64_roundtrip_w16 (reference : Nat) (delta : Int) (href : reference < 2 ^ 62)
    (hlo : -(2 ^ 15 : Int) < delta) (hhi : delta < 2 ^ 15)
    (hnn : 0 ≤ (reference : Int) + delta) :
    picoquic_get_packet_number64 reference (2 ^ 64 - 2 ^ 16)
      (((reference : Int) + delta).toNat % 2 ^ 16) = ((reference : Int) + delta).toNat := by
  set T := ((reference : Int) + delta).toNat with hTdef
  have hT : (T : Int) = (reference : Int) + delta := Int.toNat_of_nonneg hnn
  have hElt : reference + 1 < 2 ^ 64 := by omega
  have hpn_lt : T % 2 ^ 16 < 2 ^ 16 := Nat.mod_lt _ (by norm_num)
  simp only [picoquic_get_packet_number64]
  have hmod_mask : (2 ^ 64 - 2 ^ 16) % U64 = 2 ^ 64 - 2 ^ 16 := by norm_num [U64]
  rw [hmod_mask]
  have hmodE : (reference + 1) % U64 = reference + 1 := Nat.mod_eq_of_lt (by norm_num [U64]; omega)
  rw [hmodE]
  have hnmpo : ((U64 - 1 - (2 ^ 64 - 2 ^ 16)) + 1) % U64 = 2 ^ 16 := by norm_num [U64]
  rw [hnmpo]
  have hpn32 : T % 2 ^ 16 % U32 = T % 2 ^ 16 := Nat.mod_eq_of_lt (by norm_num [U32]; omega)
  rw [hpn32]
  rw [land_high_mask (reference + 1) 16 hElt (by norm_num)]
  rw [lor_low_disjoint _ _ 16 (Nat.mul_mod_left _ _) hpn_lt]
  have hclt : (reference + 1) / 2 ^ 16 * 2 ^ 16 + T % 2 ^ 16 < 2 ^ 64 := by omega
  rw [land_high_mask _ 16 hclt (by norm_num)]
  simp only [U64]
  split_ifs <;> omega

theorem getpn64_roundtrip_w24 (reference : Nat) (delta : Int) (href : reference < 2 ^ 62)
    (hlo : -(2 ^ 23 : Int) < delta) (hhi : delta < 2 ^ 23)
    (hnn : 0 ≤ (reference : Int) + delta) :
    picoquic_get_packet_number64 reference (2 ^ 64 - 2 ^ 24)
      (((reference : Int) + delta).toNat % 2 ^ 24) = ((reference : Int) + delta).toNat := by
  set T := ((reference : Int) + delta).toNat with hTdef
  have hT : (T : Int) = (reference : Int) + delta := Int.toNat_of_nonneg hnn
  have hElt : reference + 1 < 2 ^ 64 := by omega
  have hpn_lt : T % 2 ^ 24 < 2 ^ 24 := Nat.mod_lt _ (by norm_num)
  simp only [picoquic_get_packet_number64]
  have hmod_mask : (2 ^ 64 - 2 ^ 24) % U64 = 2 ^ 64 - 2 ^ 24 := by norm_num [U64]
  rw [hmod_mask]
  have hmodE : (reference + 1) % U64 = reference + 1 := Nat.mod_eq_of_lt (by norm_num [U64]; omega)
  rw [hmodE]
  have hnmpo : ((U64 - 1 - (2 ^ 64 - 2 ^ 24)) + 1) % U64 = 2 ^ 24 := by norm_num [U64]
  rw [hnmpo]
  have hpn32 : T % 2 ^ 24 % U32 = T % 2 ^ 24 := Nat.mod_eq_of_lt (by norm_num [U32]; omega)
  rw [hpn32]
  rw [land_high_mask (reference + 1) 24 hElt (by norm_num)]
  rw [lor_low_disjoint _ _ 24 (Nat.mul_mod_left _ _) hpn_lt]
  have hclt : (reference + 1) / 2 ^ 24 * 2 ^ 24 + T % 2 ^ 24 < 2 ^ 64 := by omega
  rw [land_high_mask _ 24 hclt (by norm_num)]
  simp only [U64]
  split_ifs <;> omega

theorem getpn64_roundtrip_w32 (reference : Nat) (delta : Int) (href : reference < 2 ^ 62)
    (hlo : -(2 ^ 31 : Int) < delta) (hhi : delta < 2 ^ 31)
    (hnn : 0 ≤ (reference : Int) + delta) :
    picoquic_get_packet_number64 reference (2 ^ 64 - 2 ^ 32)
      (((reference : Int) + delta).toNat % 2 ^ 32) = ((reference : Int) + delta).toNat := by
  set T := ((reference : Int) + delta).toNat with hTdef
  have hT : (T : Int) = (reference : Int) + delta := Int.toNat_of_nonneg hnn
  have hElt : reference + 1 < 2 ^ 64 := by omega
  have hpn_lt : T % 2 ^ 32 < 2 ^ 32 := Nat.mod_lt _ (by norm_num)
  simp only [picoquic_get_packet_number64]
  have hmod_mask : (2 ^ 64 - 2 ^ 32) % U64 = 2 ^ 64 - 2 ^ 32 := by norm_num [U64]
  rw [hmod_mask]
  have hmodE : (reference + 1) % U64 = reference + 1 := Nat.mod_eq_of_lt (by norm_num [U64]; omega)
  rw [hmodE]
  have hnmpo : ((U64 - 1 - (2 ^ 64 - 2 ^ 32)) + 1) % U64 = 2 ^ 32 := by norm_num [U64]
  rw [hnmpo]
  have hpn32 : T % 2 ^ 32 % U32 = T % 2 ^ 32 := Nat.mod_eq_of_lt (by norm_num [U32]; omega)
  rw [hpn32]
  rw [land_high_mask (reference + 1) 32 hElt (by norm_num)]
  rw [lor_low_disjoint _ _ 32 (Nat.mul_mod_left _ _) hpn_lt]
  have hclt : (reference + 1) / 2 ^ 32 * 2 ^ 32 + T % 2 ^ 32 < 2 ^ 64 := by omega
  rw [land_high_mask _ 32 hclt (by norm_num)]
  simp only [U64]
  split_ifs <;> omega

/-! ## Claim C1 -/

/-- C1 (counterexample): the round trip fails at the lower edge of the
claimed delta range.  With `reference = 0x200`, `n = 1` and
`delta = -2^7` (allowed by the claim), `true_pn = 0x180` truncates to
`0x80`, but `picoquic_get_packet_number64` returns `0x280`: the window is
centered on `reference + 1`, not on `reference`. -/
theorem C1_counterexample :
    ¬ (picoquic_get_packet_number64 0x200 (decrypt_pnmask 1) 0x80 = 0x180) ∧
    picoquic_get_packet_number64 0x200 (decrypt_pnmask 1) 0x80 = 0x280 := by
  decide

/-- C1 (amended): for every `reference < 2^62`, `n ∈ {1,2,3,4}` and
`delta` with `-2^(8n-1) < delta < 2^(8n-1)` (the claim's closed lower
bound `-2^(8n-1)` replaced by an open one) and `reference + delta ≥ 0`,
reconstruction with the decryptor-built mask returns exactly
`reference + delta` from its truncation. -/
theorem C1_pn_roundtrip_amended (n reference : Nat) (delta : Int)
    (hn1 : 1 ≤ n) (hn4 : n ≤ 4) (href : reference < 2 ^ 62)
    (hlo : -(2 ^ (8 * n - 1) : Int) < delta) (hhi : delta < 2 ^ (8 * n - 1))
    (hnn : 0 ≤ (reference : Int) + delta) :
    picoquic_get_packet_number64 reference (decrypt_pnmask n)
      (((reference : Int) + delta).toNat % 2 ^ (8 * n))
      = ((reference : Int) + delta).toNat := by
  interval_cases n
  · rw [show decrypt_pnmask 1 = 2 ^ 64 - 2 ^ 8 from by decide]
    exact getpn64_roundtrip_w8 reference delta href hlo hhi hnn
  · rw [show decrypt_pnmask 2 = 2 ^ 64 - 2 ^ 16 from by decide]
    exact getpn64_roundtrip_w16 reference delta href hlo hhi hnn
  · rw [show decrypt_pnmask 3 = 2 ^ 64 - 2 ^ 24 from by decide]
    exact getpn64_roundtrip_w24 reference delta href hlo hhi hnn
  · rw [show decrypt_pnmask 4 = 2 ^ 64 - 2 ^ 32 from by decide]
    exact getpn64_roundtrip_w32 reference delta href hlo hhi hnn

/-- C1 (witness): the amended round trip at `n = 1`, `reference = 5`,
`delta = 3`. -/
theorem C1_pn_roundtrip_amended_witness :
    picoquic_get_packet_number64 5 (decrypt_pnmask 1) 8 = 8 := by
  have h := C1_pn_roundtrip_amended 1 5 3 (by norm_num) (by norm_num) (by norm_num)
    (by norm_num) (by norm_num) (by norm_num)
  norm_num at h
  exact h

/-! ## Claim C6 -/

/-- C6 (counterexample): after header-protection removal of a short
packet with a 1-byte packet number, the decryptor leaves
`pnmask = 0xFFFFFFFFFFFFFF00` — the HIGH 56 bits set — not the value
`0xFF` with the low 8 bits set that the claim asserts. -/
theorem C6_counterexample :
    (picoquic_decrypt_packet cnxC6 dgramC6 phC6 (some hpZero) (aeadZero 0) true).ph.pnmask
      = 0xFFFFFFFFFFFFFF00 ∧
    ¬ ((picoquic_decrypt_packet cnxC6 dgramC6 phC6 (some hpZero) (aeadZero 0) true).ph.pnmask
      = 0xFF) := by
  decide

/-- C6 (amended): for a decoded packet-number length `n ∈ {1,2,3,4}`, the
decryptor's byte loop builds the mask whose low `8n` bits are CLEAR and
whose high `64 - 8n` bits are set, `2^64 - 2^(8n)`, independently of the
buffer and of the header-protection mask bytes. -/
theorem C6_pnmask_amended (mask bytes : List Nat) (i off pnv n : Nat)
    (hn1 : 1 ≤ n) (hn4 : n ≤ 4) :
    (pn_unmask_loop mask i n (bytes, off, pnv, U64 - 1)).2.2.2 = 2 ^ 64 - 2 ^ (8 * n) := by
  rw [pn_unmask_loop_pnm]
  show pnmask_shift_loop n (U64 - 1) = 2 ^ 64 - 2 ^ (8 * n)
  interval_cases n <;> decide

/-- C6 (witness): the amended mask shape at `n = 2`. -/
theorem C6_pnmask_amended_witness :
    (pn_unmask_loop [] 1 2 ([], 0, 0, U64 - 1)).2.2.2 = 2 ^ 64 - 2 ^ 16 := by
  exact C6_pnmask_amended [] [] 1 0 0 2 (by norm_num) (by norm_num)

/-! ## Claim C7 -/

/-- C7 (counterexample): the claimed boundary values are false on the
code: with reference `0x100` and the decryptor's 1-byte mask, truncated
`0x7F` reconstructs to `0x17F` (not `0x7F`) and truncated `0x80`
reconstructs to `0x180` (not `0x80`). -/
theorem C7_counterexample :
    ¬ (picoquic_get_packet_number64 0x100 (decrypt_pnmask 1) 0x7F = 0x7F ∧
       picoquic_get_packet_number64 0x100 (decrypt_pnmask 1) 0x80 = 0x80 ∧
       picoquic_get_packet_number64 0x100 (decrypt_pnmask 1) 0xFF = 0xFF ∧
       picoquic_get_packet_number64 0x180 (decrypt_pnmask 1) 0x00 = 0x200) := by
  decide

/-- C7 (amended): the boundary values the code actually produces: with
reference `0x100`, truncated `0x7F ↦ 0x17F`, `0x80 ↦ 0x180`,
`0xFF ↦ 0xFF`; with reference `0x180`, truncated `0x00 ↦ 0x200`. -/
theorem C7_boundaries_amended :
    picoquic_get_packet_number64 0x100 (decrypt_pnmask 1) 0x7F = 0x17F ∧
    picoquic_get_packet_number64 0x100 (decrypt_pnmask 1) 0x80 = 0x180 ∧
    picoquic_get_packet_number64 0x100 (decrypt_pnmask 1) 0xFF = 0xFF ∧
    picoquic_get_packet_number64 0x180 (decrypt_pnmask 1) 0x00 = 0x200 := by
  decide

/-- A connection-id parse advances the cursor by at most 20 bytes
(the cap applied by `picoquic_parse_connection_id`). -/
theorem parse_cid_adv_le (bytes : List Nat) (off len : Nat) :
    (picoquic_parse_connection_id bytes off len).2 ≤ 20 := by
  simp only [picoquic_parse_connection_id]
  split <;> simp_all

/-- The long-header type switch never touches `payload_length`. -/
theorem switch_payload_eq (env : VersionEnv) (bytes : List Nat) (ph1 : PacketHeader) :
    (picoquic_parse_long_type_switch env bytes ph1).payload_length = ph1.payload_length := by
  simp only [picoquic_parse_long_type_switch]
  split_ifs <;> rfl

/-- The long-header type switch keeps `offset` below `2^32`: every update
goes through the 32-bit truncation `u32`. -/
theorem switch_offset_lt (env : VersionEnv) (bytes : List Nat) (ph1 : PacketHeader)
    (h1 : ph1.offset < 2 ^ 32) (h2 : bytes.length < 2 ^ 31) :
    (picoquic_parse_long_type_switch env bytes ph1).offset < 2 ^ 32 := by
  simp only [picoquic_parse_long_type_switch]
  split_ifs <;> simp only [u32, U32] <;> omega

/-- Bound invariant through the long-header stages: starting from a
header with zero `payload_length` and a 32-bit `offset`, a successful
parse whose final offset is within the datagram satisfies
`offset + payload_length <= length`. -/
theorem long_branch_bound (env : VersionEnv) (reg : Registry) (bytes : List Nat)
    (addr_from : Nat) (pcnx0 : Option Nat) (ph1 : PacketHeader)
    (hpl : ph1.payload_length = 0) (hof : ph1.offset < 2 ^ 32)
    (hlen : bytes.length < 2 ^ 31) (R : ParseResult)
    (hR : picoquic_parse_long_finish reg addr_from pcnx0
      (picoquic_parse_long_payload bytes (picoquic_parse_long_type_switch env bytes ph1)) = R)
    (hret : R.ret = 0) (hoff : R.ph.offset ≤ bytes.length) :
    R.ph.offset + R.ph.payload_length ≤ bytes.length := by
  have hpl2 : (picoquic_parse_long_type_switch env bytes ph1).payload_length = 0 := by
    rw [switch_payload_eq]; exact hpl
  have hof2 : (picoquic_parse_long_type_switch env bytes ph1).offset < 2 ^ 32 :=
    switch_offset_lt env bytes ph1 hof hlen
  set ph2 := picoquic_parse_long_type_switch env bytes ph1 with hph2
  clear_value ph2
  rcases hpr : picoquic_parse_long_payload bytes ph2 with ⟨ph3, payl, varl⟩
  rw [hpr] at hR
  subst hR
  simp only [picoquic_parse_long_finish] at hret hoff ⊢
  simp only [picoquic_parse_long_payload] at hpr
  split at hpr
  · -- retry type (lines 184-192)
    rename_i hc1
    split at hpr
    · rename_i hc2
      cases hpr
      have hne : ¬ (ph2.ptype = PType.error) := by rw [hc1]; decide
      rw [if_pos hne] at hret hoff ⊢
      simp only [u32, U32, u16, U16] at hoff ⊢
      omega
    · rename_i hc2
      cases hpr
      rw [if_neg (by simp)] at hret hoff ⊢
      simp only at hoff ⊢
      omega
  · -- non-retry: explicit payload-length varint (lines 193-204)
    rename_i hc1
    split at hpr
    · rename_i hc2
      cases hpr
      rw [if_neg (by simp)] at hret hoff ⊢
      simp only [u16, U16] at hoff ⊢
      split_ifs at hoff ⊢ <;> omega
    · rename_i hc2
      cases hpr
      push_neg at hc2
      obtain ⟨hc2a, hc2b, hc2c⟩ := hc2
      split_ifs at hret hoff ⊢ <;>
        simp only [u32, U32, u16, U16] at hoff ⊢ <;> omega

/-- Bound invariant for the version-negotiation stage. -/
theorem vneg_branch_bound (reg : Registry) (addr_from : Nat) (pcnx0 : Option Nat)
    (length : Nat) (ph1 : PacketHeader) (ret : Int) (ph : PacketHeader) (pcnx : Option Nat)
    (hP : picoquic_parse_long_vneg reg addr_from pcnx0 length ph1 = ⟨ret, ph, pcnx⟩)
    (hret : ret = 0) (hoff : ph.offset ≤ length) :
    ph.offset + ph.payload_length ≤ length := by
  simp only [picoquic_parse_long_vneg] at hP
  cases hP
  simp only [u16, U16] at hoff ⊢
  split_ifs at hoff ⊢ <;> omega

/-- Bound invariant for the short-header stage. -/
theorem short_branch_bound (env : VersionEnv) (quic : QuicCtx) (reg : Registry)
    (bytes : List Nat) (addr_from : Nat) (pcnx0 : Option Nat) (receiving : Nat)
    (ret : Int) (ph : PacketHeader) (pcnx : Option Nat)
    (hP : picoquic_parse_short_header env quic reg bytes addr_from pcnx0 receiving
      = ⟨ret, ph, pcnx⟩)
    (hret : ret = 0) (hoff : ph.offset ≤ bytes.length) :
    ph.offset + ph.payload_length ≤ bytes.length := by
  simp only [picoquic_parse_short_header] at hP
  repeat' split at hP
  all_goals cases hP
  all_goals try simp only [u16, U16] at hoff ⊢
  all_goals omega

/-- C9 (amended): on every input of C-representable size on which
`picoquic_parse_packet_header` returns success AND whose produced
`offset` does not already exceed the datagram length, the header
satisfies `offset + payload_length <= datagram length`, for every packet
type. The extra `offset` hypothesis is needed because the source parses
the long-header source connection id without any bounds check
(packet.c line 89), so a successful parse can leave `offset` past the
end of the datagram, as `C9_counterexample` shows. -/
theorem C9_parse_bound_amended (env : VersionEnv) (quic : QuicCtx) (reg : Registry)
    (bytes : List Nat) (addr_from : Nat) (pcnx0 : Option Nat) (receiving : Nat)
    (hlen : bytes.length < 2 ^ 31)
    (hret : (picoquic_parse_packet_header env quic reg bytes addr_from pcnx0 receiving).ret = 0)
    (hoff : (picoquic_parse_packet_header env quic reg bytes addr_from pcnx0 receiving).ph.offset
      ≤ bytes.length) :
    (picoquic_parse_packet_header env quic reg bytes addr_from pcnx0 receiving).ph.offset +
      (picoquic_parse_packet_header env quic reg bytes addr_from pcnx0 receiving).ph.payload_length
      ≤ bytes.length := by
  rcases hP : picoquic_parse_packet_header env quic reg bytes addr_from pcnx0 receiving
    with ⟨ret, ph, pcnx⟩
  rw [hP] at hret hoff
  simp only at hret hoff ⊢
  simp only [picoquic_parse_packet_header] at hP
  split at hP
  · cases hP; omega
  · split at hP
    · cases hP
      simp only at hoff ⊢
      omega
    · split at hP
      · split at hP
        · cases hP; omega
        · split at hP
          · cases hP; omega
          · split at hP
            · exact vneg_branch_bound _ _ _ _ _ _ _ _ hP hret hoff
            · refine long_branch_bound env reg bytes addr_from pcnx0 _ ?_ ?_ hlen _ hP hret hoff
              · rfl
              · have h1 := parse_cid_adv_le bytes 6 (byteAt bytes 5)
                have h2 := parse_cid_adv_le bytes
                  (6 + (picoquic_parse_connection_id bytes 6 (byteAt bytes 5)).2 + 1)
                  (byteAt bytes (6 + (picoquic_parse_connection_id bytes 6 (byteAt bytes 5)).2))
                simp only
                omega
      · exact short_branch_bound env quic reg bytes addr_from pcnx0 receiving _ _ _ hP hret hoff

/-- C9 (counterexample): an 8-byte version-negotiation datagram whose
source connection-id length octet announces 20 bytes that are not
present. The parse still returns success (`ret = 0`) but the produced
header has `offset = 27 > 8 = datagram length`, so
`offset + payload_length <= datagram length` fails. -/
theorem C9_counterexample :
    (picoquic_parse_packet_header envTest quicTest [] bytesC9 7 none 1).ret = 0 ∧
    (picoquic_parse_packet_header envTest quicTest [] bytesC9 7 none 1).ph.offset +
      (picoquic_parse_packet_header envTest quicTest [] bytesC9 7 none 1).ph.payload_length >
      bytesC9.length := by
  constructor <;> decide

/-- C9 (witness): the amended bound at a concrete 40-byte short-header
datagram that parses successfully with an in-range offset. -/
theorem C9_parse_bound_amended_witness :
    (picoquic_parse_packet_header envTest quicTest regC3 dgramC3 7 none 1).ret = 0 ∧
    (picoquic_parse_packet_header envTest quicTest regC3 dgramC3 7 none 1).ph.offset ≤
      dgramC3.length ∧
    (picoquic_parse_packet_header envTest quicTest regC3 dgramC3 7 none 1).ph.offset +
      (picoquic_parse_packet_header envTest quicTest regC3 dgramC3 7 none 1).ph.payload_length ≤
      dgramC3.length :=
  ⟨by decide, by decide,
   C9_parse_bound_amended envTest quicTest regC3 dgramC3 7 none 1 (by decide) (by decide)
     (by decide)⟩

/-- C4 (counterexample): a server-bound Initial to the existing server
connection `cnxC4`, carried in a 1100-byte datagram against the enforced
MTU of 1200.  The MTU check of packet.c lines 467-474 does set
`PICOQUIC_ERROR_INITIAL_TOO_SHORT`, but the decrypt block of lines
485-544 runs regardless of `ret` and overwrites the error with
`PICOQUIC_ERROR_AEAD_CHECK` when decryption fails, so processing does
not fail with the InitialTooShort error. -/
theorem C4_counterexample :
    (picoquic_parse_header_and_decrypt envTest quicTest cryptoFail regC4 segInitC4 1100 9 none).ret
      = PICOQUIC_ERROR_AEAD_CHECK ∧
    ¬ ((picoquic_parse_header_and_decrypt envTest quicTest cryptoFail regC4 segInitC4 1100 9
        none).ret = PICOQUIC_ERROR_INITIAL_TOO_SHORT) := by
  constructor <;> decide

/-- C4 (amended): when the Initial matches NO existing connection and the
datagram is below the enforced MTU, processing fails with
`PICOQUIC_ERROR_INITIAL_TOO_SHORT`, no connection context is created and
the registry is unchanged.  (When a server-side connection already
matches, the error can be overwritten by the unguarded decrypt block, as
`C4_counterexample` shows.) -/
theorem C4_initial_too_short_amended (env : VersionEnv) (quic : QuicCtx) (crypto : CryptoBundle)
    (reg : Registry) (bytes : List Nat) (packet_length addr_from : Nat)
    (hret : (picoquic_parse_packet_header env quic reg bytes addr_from none 1).ret = 0)
    (hcnx : (picoquic_parse_packet_header env quic reg bytes addr_from none 1).pcnx = none)
    (hty : (picoquic_parse_packet_header env quic reg bytes addr_from none 1).ph.ptype
      = PType.initial)
    (hmtu : packet_length < PICOQUIC_ENFORCED_INITIAL_MTU) :
    (picoquic_parse_header_and_decrypt env quic crypto reg bytes packet_length addr_from none).ret
      = PICOQUIC_ERROR_INITIAL_TOO_SHORT ∧
    (picoquic_parse_header_and_decrypt env quic crypto reg bytes packet_length addr_from
      none).new_context_created = false ∧
    (picoquic_parse_header_and_decrypt env quic crypto reg bytes packet_length addr_from
      none).reg = reg := by
  rcases hP : picoquic_parse_packet_header env quic reg bytes addr_from none 1 with ⟨ret, ph, pcnx⟩
  rw [hP] at hret hcnx hty
  simp only at hret hcnx hty
  subst hret
  subst hcnx
  simp only [picoquic_parse_header_and_decrypt, hP, picoquic_parse_header_and_decrypt_post,
    hty, hmtu]
  simp [PICOQUIC_ERROR_INITIAL_TOO_SHORT]

/-- C4 (witness): the amended statement at the concrete Initial segment
`segInitC4` against an empty registry. -/
theorem C4_initial_too_short_amended_witness :
    (picoquic_parse_header_and_decrypt envTest quicTest cryptoFail [] segInitC4 1100 9 none).ret
      = PICOQUIC_ERROR_INITIAL_TOO_SHORT :=
  (C4_initial_too_short_amended envTest quicTest cryptoFail [] segInitC4 1100 9
    (by decide) (by decide) (by decide) (by decide)).1

/-- C5: when a packet parses against a known connection and its decrypt
dispatch succeeds (AEAD length check passes) but reports the packet
number as already received, `picoquic_incoming_segment` returns -1, the
handler oracles are never invoked (the result does not depend on `H`, so
no frame is processed), and the only state change is setting
`ack_needed := 1` in the packet's number space of that connection. -/
theorem C5_duplicate_ack (env : VersionEnv) (quic : QuicCtx) (crypto : CryptoBundle) (H : Handlers)
    (bytes : List Nat) (packet_length addr_from : Nat) (st : EndpointState) (ci : Nat)
    (E : DecDispatch)
    (hret : (picoquic_parse_packet_header env quic st.reg bytes addr_from none 1).ret = 0)
    (hcnx : (picoquic_parse_packet_header env quic st.reg bytes addr_from none 1).pcnx = some ci)
    (hE : phd_decrypt_dispatch crypto (regGet st.reg ci) bytes
      (picoquic_parse_packet_header env quic st.reg bytes addr_from none 1).ph
      ((picoquic_parse_packet_header env quic st.reg bytes addr_from none 1).ph.offset +
       (picoquic_parse_packet_header env quic st.reg bytes addr_from none 1).ph.payload_length)
      = E)
    (hnd : ¬ (E.decoded > sub64 E.plen E.ph.offset))
    (hdup : E.already_received = true)
    (hpath : picoquic_get_incoming_path E.ph (regGet st.reg ci) = true) :
    picoquic_incoming_segment env quic crypto H bytes packet_length addr_from st
      = (-1, E.consumed,
         updateCnx st ci (fun c =>
           setPktCtx c E.ph.pc { getPktCtx c E.ph.pc with ack_needed := 1 })) := by
  rcases hP : picoquic_parse_packet_header env quic st.reg bytes addr_from none 1
    with ⟨ret, ph, pcnx⟩
  rw [hP] at hret hcnx hE
  simp only at hret hcnx hE
  subst hret
  subst hcnx
  by_cases hI : ph.ptype = PType.initial <;>
    simp [picoquic_incoming_segment, picoquic_parse_header_and_decrypt, hP,
      picoquic_parse_header_and_decrypt_post, hI, hE, hnd, hdup, hpath,
      PICOQUIC_ERROR_DUPLICATE, PICOQUIC_ERROR_AEAD_CHECK, PICOQUIC_ERROR_INITIAL_TOO_SHORT,
      PICOQUIC_ERROR_UNEXPECTED_PACKET, PICOQUIC_ERROR_FNV1A_CHECK, PICOQUIC_ERROR_CNXID_CHECK,
      PICOQUIC_ERROR_RETRY, PICOQUIC_ERROR_DETECTED, PICOQUIC_ERROR_CONNECTION_DELETED,
      PICOQUIC_ERROR_CNXID_SEGMENT, PICOQUIC_ERROR_STATELESS_RESET,
      PICOQUIC_ERROR_SPURIOUS_REPEAT]

/-- C5 (witness): the duplicate path at the concrete short-header packet
`dgramC5`, whose packet number 5 is already in `cnxC5`'s receive set. -/
theorem C5_duplicate_ack_witness :
    picoquic_incoming_segment envTest quicTest cryptoZeroMask handlersZero dgramC5 30 7 stC5
      = (-1,
         (phd_decrypt_dispatch cryptoZeroMask (regGet stC5.reg 0) dgramC5
           (picoquic_parse_packet_header envTest quicTest stC5.reg dgramC5 7 none 1).ph
           ((picoquic_parse_packet_header envTest quicTest stC5.reg dgramC5 7 none 1).ph.offset +
            (picoquic_parse_packet_header envTest quicTest stC5.reg dgramC5 7 none
              1).ph.payload_length)).consumed,
         updateCnx stC5 0 (fun c =>
           setPktCtx c (phd_decrypt_dispatch cryptoZeroMask (regGet stC5.reg 0) dgramC5
             (picoquic_parse_packet_header envTest quicTest stC5.reg dgramC5 7 none 1).ph
             ((picoquic_parse_packet_header envTest quicTest stC5.reg dgramC5 7 none 1).ph.offset +
              (picoquic_parse_packet_header envTest quicTest stC5.reg dgramC5 7 none
                1).ph.payload_length)).ph.pc
             { getPktCtx c (phd_decrypt_dispatch cryptoZeroMask (regGet stC5.reg 0) dgramC5
                 (picoquic_parse_packet_header envTest quicTest stC5.reg dgramC5 7 none 1).ph
                 ((picoquic_parse_packet_header envTest quicTest stC5.reg dgramC5 7 none
                    1).ph.offset +
                  (picoquic_parse_packet_header envTest quicTest stC5.reg dgramC5 7 none
                    1).ph.payload_length)).ph.pc with ack_needed := 1 })) :=
  C5_duplicate_ack envTest quicTest cryptoZeroMask handlersZero dgramC5 30 7 stC5 0 _
    (by decide) (by decide) rfl (by decide) (by decide) (by decide)

/-- C3 (code bug): a short-header datagram to an unknown destination id
whose sender is a known peer address, whose length (40) is at least the
minimum reset packet size and whose trailing 16 bytes equal that
connection's stored `reset_secret` — all three conditions the claim
requires for stateless-reset detection hold — yet processing returns -1
and leaves the endpoint state completely unchanged: no connection
transitions to Disconnected.  The cause: `picoquic_parse_packet_header`
(packet.c lines 291-294) never sets `ph->ptype` on the
unknown-connection short-header path, so it keeps the memset-zero member
(`picoquic_packet_error`), and the reset-candidate test of
`picoquic_parse_header_and_decrypt` (lines 545-546) requires a 1-RTT
type and can never fire. -/
theorem C3_stateless_reset_dead :
    ((picoquic_cnx_by_net regC3 7 = some 0) ∧
     PICOQUIC_RESET_PACKET_MIN_SIZE ≤ dgramC3.length ∧
     dgramC3.drop (dgramC3.length - PICOQUIC_RESET_SECRET_SIZE) = cnxC3.reset_secret) ∧
    (picoquic_parse_packet_header envTest quicTest regC3 dgramC3 7 none 1).ph.ptype
      = PType.error ∧
    picoquic_incoming_segment envTest quicTest cryptoZeroMask handlersZero dgramC3 40 7
      ⟨regC3, []⟩ = (-1, 40, ⟨regC3, []⟩) := by
  refine ⟨⟨?_, ?_, ?_⟩, ?_, ?_⟩ <;> decide

/-- A trace whose every entry reports 0 satisfies `allButLastZero`. -/
theorem all_snd_zero_allButLastZero (tr : List (Nat × Int))
    (h : tr.all (fun x => x.2 == 0) = true) : allButLastZero tr = true := by
  induction tr with
  | nil => rfl
  | cons a tr ih =>
    simp only [List.all_cons, Bool.and_eq_true] at h
    cases tr with
    | nil => rfl
    | cons b tr2 => simp only [allButLastZero, Bool.and_eq_true]; exact ⟨h.1, ih h.2⟩

/-- Appending any entry to an all-zero trace keeps `allButLastZero`. -/
theorem all_snd_zero_append_allButLastZero (tr : List (Nat × Int)) (e : Nat × Int)
    (h : tr.all (fun x => x.2 == 0) = true) : allButLastZero (tr ++ [e]) = true := by
  induction tr with
  | nil => rfl
  | cons a tr ih =>
    simp only [List.all_cons, Bool.and_eq_true] at h
    cases tr with
    | nil => simp only [List.nil_append, List.cons_append, allButLastZero, Bool.and_eq_true]
             exact ⟨h.1, trivial⟩
    | cons b tr2 =>
      simp only [List.cons_append, allButLastZero, Bool.and_eq_true]
      exact ⟨h.1, by simpa using ih h.2⟩

/-- Invariant of the datagram loop: started from an all-zero trace, any
terminating run returns 0 and a trace whose entries are all 0 except
possibly the last. -/
theorem loop_ret_zero_aux {σ : Type} (S : SegProc σ) (bytes : List Nat) (L P : Nat) :
    ∀ fuel idx st tr r st2 trC,
      tr.all (fun x => x.2 == 0) = true →
      picoquic_incoming_packet_loop S bytes L P fuel idx st tr = some (r, st2, trC) →
      r = 0 ∧ allButLastZero trC = true := by
  intro fuel
  induction fuel with
  | zero =>
    intro idx st tr r st2 trC h hl
    simp [picoquic_incoming_packet_loop] at hl
  | succ f ih =>
    intro idx st tr r st2 trC h hl
    simp only [picoquic_incoming_packet_loop] at hl
    split at hl
    · split at hl
      · rename_i h0
        refine ih _ _ _ _ _ _ ?_ hl
        simp only [List.all_append, List.all_cons, List.all_nil, Bool.and_eq_true]
        exact ⟨h, by simp [h0], trivial⟩
      · simp only [Option.some.injEq, Prod.mk.injEq] at hl
        obtain ⟨hr, _, htr⟩ := hl
        exact ⟨hr.symm, htr ▸ all_snd_zero_append_allButLastZero _ _ h⟩
    · simp only [Option.some.injEq, Prod.mk.injEq] at hl
      obtain ⟨hr, _, htr⟩ := hl
      exact ⟨hr.symm, htr ▸ all_snd_zero_allButLastZero _ h⟩

/-- C10: whenever `picoquic_incoming_packet` terminates it returns 0,
regardless of how many segments fail or with which error, and its trace
shows that the first segment reporting a nonzero code (if any) was the
last one processed: every earlier entry reports 0.  (When a segment
reports success without consuming bytes the C loop never returns; the
model returns `none` there, so the theorem covers every returning
run.) -/
theorem C10_incoming_packet_returns_zero {σ : Type} (S : SegProc σ) (bytes : List Nat) (st : σ)
    (r : Int) (st2 : σ) (tr : List (Nat × Int))
    (h : picoquic_incoming_packet S bytes st = some (r, st2, tr)) :
    r = 0 ∧ allButLastZero tr = true :=
  loop_ret_zero_aux S bytes bytes.length bytes.length (bytes.length + 1) 0 st [] r st2 tr rfl h

/-- C2 (amended): when the segment at offset `idx` of a datagram reports
a nonzero code, `picoquic_incoming_packet_loop` STOPS there: it returns
immediately with ret replaced by 0, the state produced by that segment,
and a trace ending at `idx` — the remaining coalesced segments are not
processed (packet.c lines 1485-1488: `ret = 0; break`). -/
theorem C2_error_stops_walk {σ : Type} (S : SegProc σ) (bytes : List Nat) (L P fuel idx : Nat)
    (st : σ) (tr : List (Nat × Int)) (r : Int × Nat × σ)
    (hidx : idx < L) (hS : S (bytes.drop idx) P st = r) (hr : ¬ (r.1 = 0)) :
    picoquic_incoming_packet_loop S bytes L P (fuel + 1) idx st tr
      = some (0, r.2.2, tr ++ [(idx, r.1)]) := by
  simp only [picoquic_incoming_packet_loop, if_pos hidx, hS, if_neg hr]



/-- One successful loop step: a segment reporting 0 advances the offset
by its consumed count. -/
theorem loop_step_ok {σ : Type} (S : SegProc σ) (bytes : List Nat) (L P f idx : Nat)
    (st : σ) (tr : List (Nat × Int)) (c : Nat) (s2 : σ)
    (hidx : idx < L) (hS : S (bytes.drop idx) P st = (0, c, s2)) :
    picoquic_incoming_packet_loop S bytes L P (f + 1) idx st tr
      = picoquic_incoming_packet_loop S bytes L P f (idx + c) s2 (tr ++ [(idx, 0)]) := by
  simp only [picoquic_incoming_packet_loop, if_pos hidx, hS]
  simp

/-- The loop returns as soon as the offset reaches the datagram end. -/
theorem loop_halt {σ : Type} (S : SegProc σ) (bytes : List Nat) (L P f idx : Nat)
    (st : σ) (tr : List (Nat × Int)) (hidx : ¬ idx < L) :
    picoquic_incoming_packet_loop S bytes L P (f + 1) idx st tr = some (0, st, tr) := by
  simp only [picoquic_incoming_packet_loop, if_neg hidx]

/-- Shift lemma: running the loop on `bytes` from offset `L1 + idx`
agrees (up to traces) with running it on `bytes.drop L1` from offset
`idx`, for a segment processor that ignores its packet-length
argument. -/
theorem loop_shift {σ : Type} (S : SegProc σ) (bytes : List Nat) (L1 P Q : Nat)
    (hpl : ∀ b p q s, S b p s = S b q s) (hle : L1 ≤ bytes.length) :
    ∀ fuel idx st tr tr',
      (picoquic_incoming_packet_loop S bytes bytes.length P fuel (L1 + idx) st tr).map
          (fun x => (x.1, x.2.1))
        = (picoquic_incoming_packet_loop S (bytes.drop L1) (bytes.length - L1) Q fuel idx st
            tr').map (fun x => (x.1, x.2.1)) := by
  intro fuel
  induction fuel with
  | zero => intro idx st tr tr'; rfl
  | succ f ih =>
    intro idx st tr tr'
    simp only [picoquic_incoming_packet_loop]
    have hidx : L1 + idx < bytes.length ↔ idx < bytes.length - L1 := by omega
    by_cases hc : idx < bytes.length - L1
    · rw [if_pos (hidx.mpr hc), if_pos hc]
      have hdrop : bytes.drop (L1 + idx) = (bytes.drop L1).drop idx := by
        rw [List.drop_drop]
        try congr 1
        try omega
      rw [hdrop, hpl _ P Q]
      by_cases h0 : (S ((bytes.drop L1).drop idx) Q st).1 = 0
      · rw [if_pos h0, if_pos h0]
        have harith : L1 + idx + (S ((bytes.drop L1).drop idx) Q st).2.1
            = L1 + (idx + (S ((bytes.drop L1).drop idx) Q st).2.1) := by omega
        rw [harith]
        exact ih _ _ _ _
      · rw [if_neg h0, if_neg h0]
        rfl
    · rw [if_neg (fun h => hc (hidx.mp h)), if_neg hc]
      rfl

/-- Fuel irrelevance: when every successful segment consumes at least
one byte, any two sufficient fuels give the same loop result. -/
theorem loop_fuel_irrel {σ : Type} (S : SegProc σ) (bytes : List Nat) (L P : Nat)
    (hprog : ∀ b p s, (S b p s).1 = 0 → 1 ≤ (S b p s).2.1) :
    ∀ f g idx st tr, L - idx < f → L - idx < g →
      picoquic_incoming_packet_loop S bytes L P f idx st tr
        = picoquic_incoming_packet_loop S bytes L P g idx st tr := by
  intro f
  induction f with
  | zero => intro g idx st tr hf hg; omega
  | succ f ih =>
    intro g idx st tr hf hg
    cases g with
    | zero => omega
    | succ g =>
      simp only [picoquic_incoming_packet_loop]
      by_cases hc : idx < L
      · rw [if_pos hc, if_pos hc]
        by_cases h0 : (S (bytes.drop idx) P st).1 = 0
        · rw [if_pos h0, if_pos h0]
          have hcons := hprog (bytes.drop idx) P st h0
          exact ih g _ _ _ (by omega) (by omega)
        · rw [if_neg h0, if_neg h0]
      · rw [if_neg hc, if_neg hc]

/-- C8 (amended): splitting off the first segment preserves the
post-state PROVIDED the segment processor ignores its packet-length
argument, every successful segment consumes at least one byte, and the
first segment succeeds identically on the full buffer and on its own
bytes.  The real per-segment processor meets none of these uniformly:
`packet_length` feeds the Initial-MTU check and the Initial decrypt
(packet.c lines 470 and 492), and an erroring first segment stops the
combined walk, as `C8_counterexample` shows. -/
theorem C8_split_equiv {σ : Type} (S : SegProc σ) (bytes : List Nat) (L1 : Nat) (st0 st1 : σ)
    (hpl : ∀ b p q s, S b p s = S b q s)
    (hprog : ∀ b p s, (S b p s).1 = 0 → 1 ≤ (S b p s).2.1)
    (hL1 : 0 < L1) (hle : L1 ≤ bytes.length)
    (h1 : S bytes bytes.length st0 = (0, L1, st1))
    (htake : S (bytes.take L1) L1 st0 = (0, L1, st1)) :
    picoquic_incoming_packet S (bytes.take L1) st0 = some (0, st1, [(0, 0)]) ∧
    (picoquic_incoming_packet S bytes st0).map (fun x => (x.1, x.2.1))
      = (picoquic_incoming_packet S (bytes.drop L1) st1).map (fun x => (x.1, x.2.1)) := by
  have htklen : (bytes.take L1).length = L1 := by
    rw [List.length_take]
    omega
  constructor
  · simp only [picoquic_incoming_packet, htklen]
    obtain ⟨m, rfl⟩ : ∃ m, L1 = m + 1 := ⟨L1 - 1, by omega⟩
    rw [loop_step_ok S (bytes.take (m + 1)) (m + 1) (m + 1) (m + 1) 0 st0 [] (m + 1) st1
        (by omega) (by rw [List.drop_zero]; exact htake)]
    rw [loop_halt S _ _ _ m _ _ _ (by omega)]
    simp
  · obtain ⟨n, hn⟩ : ∃ n, bytes.length = n + 1 := ⟨bytes.length - 1, by omega⟩
    simp only [picoquic_incoming_packet, hn]
    rw [loop_step_ok S bytes (n + 1) (n + 1) (n + 1) 0 st0 [] L1 st1 (by omega)
        (by rw [List.drop_zero]; exact hn ▸ h1)]
    have hshift := loop_shift S bytes L1 (n + 1) ((bytes.drop L1).length) hpl hle
      (n + 1) 0 st1 ([] ++ [((0 : Nat), (0 : Int))]) []
    rw [hn] at hshift
    rw [show (0 : Nat) + L1 = L1 + 0 from by omega]
    rw [hshift]
    have hdlen : (bytes.drop L1).length = n + 1 - L1 := by
      rw [List.length_drop, hn]
    rw [hdlen]
    congr 1
    exact loop_fuel_irrel S (bytes.drop L1) (n + 1 - L1) (n + 1 - L1)
      hprog (n + 1) (n + 1 - L1 + 1) 0 st1 [] (by omega) (by omega)

/-- C10 (witness): the zero-return at a concrete 3-byte run with a
processor that consumes everything in one step. -/
theorem C10_incoming_packet_returns_zero_witness :
    (0 : Int) = 0 ∧ allButLastZero [(0, 0)] = true :=
  C10_incoming_packet_returns_zero segProcConst [1, 2, 3] 0 0 0 [(0, 0)] (by decide)

/-- C2 (counterexample): a datagram of two coalesced segments — a 16-byte
Initial that fails (too short against the enforced MTU) followed by an
8-byte segment with an unsupported version.  The walk records only the
segment at offset 0 and stops: the second segment is never processed,
although processing it would have queued a version-negotiation response,
as the second conjunct shows. -/
theorem C2_counterexample :
    picoquic_incoming_packet (segProcOf envTest quicTest cryptoNone handlersZero 3)
      (segInitC2 ++ segVNC2) ⟨[], []⟩ = some (0, ⟨[], []⟩, [(0, -1)]) ∧
    ¬ ((picoquic_incoming_segment envTest quicTest cryptoNone handlersZero segVNC2 24 3
      ⟨[], []⟩).2.2.queue = []) := by
  constructor <;> decide

/-- C2 (witness): the amended stop-on-error behaviour at a concrete
one-segment run whose processor reports -1. -/
theorem C2_error_stops_walk_witness :
    picoquic_incoming_packet_loop segProcErr [5] 1 1 1 0 0 [] = some (0, 0, [(0, -1)]) :=
  C2_error_stops_walk segProcErr [5] 1 1 0 0 0 [] (-1, 0, 0) (by decide) rfl (by decide)

/-- C8 (counterexample): the two-segment datagram `segInitC8 ++ segVNC8`
fed whole leaves the endpoint unchanged (the failing Initial stops the
walk before the second segment), while feeding the first segment alone
and then the remainder queues a version-negotiation response: the two
post-states differ. -/
theorem C8_counterexample :
    picoquic_incoming_packet (segProcOf envTest quicTest cryptoNone handlersZero 3)
      (segInitC8 ++ segVNC8) ⟨[], []⟩ = some (0, ⟨[], []⟩, [(0, -1)]) ∧
    picoquic_incoming_packet (segProcOf envTest quicTest cryptoNone handlersZero 3)
      segInitC8 ⟨[], []⟩ = some (0, ⟨[], []⟩, [(0, -1)]) ∧
    picoquic_incoming_packet (segProcOf envTest quicTest cryptoNone handlersZero 3)
      segVNC8 ⟨[], []⟩
      = some (0, ⟨[], [⟨.vneg, ⟨0, []⟩, ⟨0, []⟩⟩]⟩, [(0, 0)]) ∧
    ¬ ((⟨[], [⟨.vneg, ⟨0, []⟩, ⟨0, []⟩⟩]⟩ : EndpointState) = ⟨[], []⟩) := by
  refine ⟨?_, ?_, ?_, ?_⟩ <;> decide

/-- C8 (witness): the amended split equivalence at a concrete 2-byte
datagram with a processor that consumes one byte per segment. -/
theorem C8_split_equiv_witness :
    picoquic_incoming_packet segProcOne ([7, 8].take 1) 0 = some (0, 1, [(0, 0)]) ∧
    (picoquic_incoming_packet segProcOne [7, 8] 0).map (fun x => (x.1, x.2.1))
      = (picoquic_incoming_packet segProcOne ([7, 8].drop 1) 1).map (fun x => (x.1, x.2.1)) :=
  C8_split_equiv segProcOne [7, 8] 1 0 1 (fun _ _ _ _ => rfl)
    (fun _ _ _ _ => Nat.le_refl 1) (by decide) (by decide) rfl rfl


end PQuic
